import Mathlib

/-!
Verification development for the lantern2 network-discovery engine.

The definitions below are a shallow embedding of the scan orchestrator
(runScan and its completion handler), the device classifier (guessType),
the name-merge chain, and the deep-fingerprint task (scanDeviceDetails)
from the server service layer. JavaScript strings that may be null or
undefined are modelled as String with the empty string standing for the
absent value, matching the truthiness tests the source performs on them.
Timestamps are modelled as opaque strings supplied by the environment and
held constant within a cycle; database ids are modelled as naturals
assigned from a counter, matching autoincrement semantics.
-/

namespace Lantern

/-- Helper for strIncludes: does the needle occur as a contiguous block. -/
def hasInfix (needle : List Char) : List Char → Bool
  | [] => needle.isEmpty
  | c :: rest => needle.isPrefixOf (c :: rest) || hasInfix needle rest

/-- Substring test, modelling the JavaScript String.prototype.includes. -/
def strIncludes (s sub : String) : Bool := hasInfix sub.data s.data

/-- Lower-casing, modelling the JavaScript String.prototype.toLowerCase.
Defined over the character list so that it evaluates inside the kernel. -/
def strToLower (s : String) : String := String.mk (s.data.map Char.toLower)

/-- One row of the nmap sweep result (fields the reconciliation reads).
The empty string models a missing mac, hostname or vendor. -/
structure RawHost where
  ip : String
  mac : String
  hostname : String
  vendor : String
deriving DecidableEq

/-- One network interface as reported by os.networkInterfaces. The netmask
is kept in dotted-quad string form, as the source reads it. -/
structure Iface where
  name : String
  family : String
  internal : Bool
  address : String
  netmask : String
  mac : String
deriving DecidableEq

/-- Device classifier from the scanner service: guessType(vendor, os).
Both inputs are lower-cased, then a fixed rule chain is evaluated with
first match winning, exactly in the source order. -/
def guessType (vendor osStr : String) : String :=
  let v := strToLower vendor
  let o := strToLower osStr
  if strIncludes v "vmware" || strIncludes v "virtualbox" || strIncludes v "qemu" || strIncludes v "parallels" then "vm"
  else if strIncludes v "microsoft" && strIncludes o "linux" then "vm"
  else if strIncludes v "apple" then "mobile"
  else if strIncludes v "samsung" || strIncludes v "motorola" || strIncludes v "google" || strIncludes v "xiaomi" then "mobile"
  else if strIncludes v "dell" || strIncludes v "hp" || strIncludes v "lenovo" then "laptop"
  else if strIncludes v "philips" || strIncludes v "hue" || strIncludes v "nest" then "iot"
  else if strIncludes v "ubiquiti" || strIncludes v "cisco" || strIncludes v "tp-link" || strIncludes v "netgear" then "router"
  else if strIncludes v "raspberry" || strIncludes v "arduino" then "iot"
  else if strIncludes v "synology" || strIncludes v "ugreen" || strIncludes v "qnap" then "server"
  else if strIncludes o "windows" then "laptop"
  else if strIncludes o "linux" then "server"
  else "unknown"

/-- Virtualization vendor tokens used by the classifier. -/
def vmTokens : List String := ["vmware", "virtualbox", "qemu", "parallels"]

/-- Phone and tablet vendor tokens used by the classifier. -/
def phoneTokens : List String := ["apple", "samsung", "motorola", "google", "xiaomi"]

/-- PC-maker vendor tokens used by the classifier. -/
def laptopTokens : List String := ["dell", "hp", "lenovo"]

/-- Smart-home vendor tokens checked before the networking-gear tokens. -/
def smartHomeTokens : List String := ["philips", "hue", "nest"]

/-- Networking-gear vendor tokens used by the classifier. -/
def routerTokens : List String := ["ubiquiti", "cisco", "tp-link", "netgear"]

/-- Additional iot vendor tokens checked after the networking-gear tokens. -/
def sbcTokens : List String := ["raspberry", "arduino"]

/-- NAS vendor tokens used by the classifier. -/
def nasTokens : List String := ["synology", "ugreen", "qnap"]

/-- Classifier following the category order stated by the specification:
all smart-home tokens (including raspberry and arduino) are checked in a
single slot before the networking-gear tokens. Written from the words of
the specification, as the comparison target for the classifier claim. -/
def specGuessType (vendor osStr : String) : String :=
  let v := strToLower vendor
  let o := strToLower osStr
  if vmTokens.any (strIncludes v) then "vm"
  else if strIncludes v "microsoft" && strIncludes o "linux" then "vm"
  else if phoneTokens.any (strIncludes v) then "mobile"
  else if laptopTokens.any (strIncludes v) then "laptop"
  else if (smartHomeTokens ++ sbcTokens).any (strIncludes v) then "iot"
  else if routerTokens.any (strIncludes v) then "router"
  else if nasTokens.any (strIncludes v) then "server"
  else if strIncludes o "windows" then "laptop"
  else if strIncludes o "linux" then "server"
  else "unknown"

/-- Classifier with the category order amended to match the source: the
smart-home tokens philips, hue and nest are checked before the
networking-gear tokens, while raspberry and arduino are checked after
them. Stated over the token lists so that the rule order is explicit. -/
def amendedGuessType (vendor osStr : String) : String :=
  let v := strToLower vendor
  let o := strToLower osStr
  if vmTokens.any (strIncludes v) then "vm"
  else if strIncludes v "microsoft" && strIncludes o "linux" then "vm"
  else if phoneTokens.any (strIncludes v) then "mobile"
  else if laptopTokens.any (strIncludes v) then "laptop"
  else if smartHomeTokens.any (strIncludes v) then "iot"
  else if routerTokens.any (strIncludes v) then "router"
  else if sbcTokens.any (strIncludes v) then "iot"
  else if nasTokens.any (strIncludes v) then "server"
  else if strIncludes o "windows" then "laptop"
  else if strIncludes o "linux" then "server"
  else "unknown"

/-- Starts-with test, modelling the JavaScript String.prototype.startsWith. -/
def strStartsWith (s p : String) : Bool := p.data.isPrefixOf s.data

/-- Resolver results available to one cycle: the two batch lookups are
association lists (the Maps built by batchMdnsLookup and batchSsdpLookup),
the per-host lookups are functions (resolver.reverse resolves to an empty
list on error, getNetbiosName returns null on failure). -/
structure ResolverEnv where
  mdnsMap : List (String × String)
  ssdpMap : List (String × String)
  dnsReverse : String → List String
  netbios : String → Option String

/-- Name-merge chain from the enrichment step of runScan: start from the
swept hostname, override with the mDNS result when present, else the SSDP
result; run reverse DNS only when the name so far is empty or equals the
IP; run NetBIOS only when the name is still empty, equals the IP, or
carries the reverse-DNS default prefix. -/
def computeFinalName (env : ResolverEnv) (host : RawHost) : String :=
  let n1 := match env.mdnsMap.lookup host.ip with
    | some v => v
    | none => match env.ssdpMap.lookup host.ip with
      | some v => v
      | none => host.hostname
  let n2 := if n1 == "" || n1 == host.ip then
      match env.dnsReverse host.ip with
      | [] => n1
      | v :: _ => v
    else n1
  if n2 == "" || n2 == host.ip || strStartsWith n2 "ip-" then
    match env.netbios host.ip with
    | some v => if v == "" then n2 else v
    | none => n2
  else n2

/-- A resolver result that counts as a non-resolution for the merge claim:
empty, equal to the IP string, or carrying the reverse-DNS default prefix. -/
def isIdentityName (ip r : String) : Bool := r == "" || r == ip || strStartsWith r "ip-"

/-- Merge rule written from the words of the specification, as the
comparison target for the name-merge claim: the highest-priority
non-identity resolver result in the order mDNS, SSDP, reverse DNS,
NetBIOS; if every strategy is empty or an identity result, fall back to
the swept hostname or the literal default. -/
def specMergeName (env : ResolverEnv) (host : RawHost) : String :=
  let cands := [env.mdnsMap.lookup host.ip, env.ssdpMap.lookup host.ip,
                (env.dnsReverse host.ip).head?, env.netbios host.ip]
  match (cands.filterMap id).find? (fun r => !(isIdentityName host.ip r)) with
  | some r => r
  | none => if host.hostname == "" then "New Device" else host.hostname

/-- Resolver environment for the name-merge counterexample: only reverse
DNS resolves the address. -/
def envC6 : ResolverEnv :=
  { mdnsMap := [], ssdpMap := [],
    dnsReverse := fun ip => if ip == "10.0.0.7" then ["dns-name"] else [],
    netbios := fun _ => none }

/-- Swept host for the name-merge counterexample: it carries a non-empty
hostname that differs from its IP. -/
def hostC6 : RawHost :=
  { ip := "10.0.0.7", mac := "aa:bb:cc:dd:ee:01", hostname := "printer", vendor := "" }

/-- Resolver environment where mDNS returns an identity result (the IP
itself) while SSDP and reverse DNS both resolve. -/
def envC6b : ResolverEnv :=
  { mdnsMap := [("10.0.0.7", "10.0.0.7")], ssdpMap := [("10.0.0.7", "ssdp-name")],
    dnsReverse := fun ip => if ip == "10.0.0.7" then ["dns-name"] else [],
    netbios := fun _ => none }

/-- Fuelled bit count of a 32-bit value, modelling the count of one bits
in the JavaScript (part >>> 0).toString(2) string. -/
def popCountAux : Nat → Nat → Nat
  | 0, _ => 0
  | fuel + 1, n => if n = 0 then 0 else n % 2 + popCountAux fuel (n / 2)

/-- Fuelled bitwise AND, modelling the 32-bit JavaScript & operator. -/
def jsAndAux : Nat → Nat → Nat → Nat
  | 0, _, _ => 0
  | fuel + 1, a, b =>
    (if a % 2 = 1 ∧ b % 2 = 1 then 1 else 0) + 2 * jsAndAux fuel (a / 2) (b / 2)

/-- Helper splitting a character list at a separator character. -/
def splitCharAux (c0 : Char) : List Char → List Char → List (List Char)
  | [], cur => [cur]
  | c :: rest, cur =>
    if c == c0 then cur :: splitCharAux c0 rest [] else splitCharAux c0 rest (cur ++ [c])

/-- Split a dotted-quad string at the dots, modelling split with ".". -/
def splitDots (s : String) : List String := (splitCharAux '.' s.data []).map String.mk

/-- Best-effort decimal parse of one octet, modelling Number on the octet
strings of a well-formed dotted quad. -/
def parseNat (s : String) : Nat := s.data.foldl (fun a c => a * 10 + (c.toNat - 48)) 0

/-- netmaskToCIDR from the scanner service: count the one bits across the
octets of the dotted-quad netmask. -/
def netmaskToCIDR (netmask : String) : Nat :=
  ((splitDots netmask).map (fun part => popCountAux 32 (parseNat part))).sum

/-- calculateNetworkAddress from the scanner service: octet-wise AND of
address and netmask, rejoined with dots. -/
def calculateNetworkAddress (ip netmask : String) : String :=
  let ipParts := (splitDots ip).map parseNat
  let maskParts := (splitDots netmask).map parseNat
  String.intercalate "." ((ipParts.zip maskParts).map (fun p => toString (jsAndAux 32 p.1 p.2)))

/-- Persistent settings row (the fields the scan cycle reads). The row may
be absent, which every reader treats as all options off. The lastScan
timestamp write at the end of a cycle is not modelled. -/
structure Settings where
  ipRange : String
  dnsServer : String
  notifyOnline : Bool
  notifyOffline : Bool
  notifyNewDevice : Bool
  scanInterval : Nat
deriving DecidableEq

/-- One Device row. Timestamps (lastSeen, createdAt) are not modelled; ids
are naturals handed out by a counter. -/
structure Device where
  id : Nat
  mac : String
  ip : String
  name : String
  vendor : String
  type : String
  status : String
  os : String
  details : String
  tags : List String
deriving DecidableEq

/-- One append-only DeviceHistory row. -/
structure HistoryRow where
  deviceId : Nat
  status : String
  latency : Option Nat
deriving DecidableEq

/-- One append-only event-log row. The schema has no metadata column. -/
structure DomainEvent where
  etype : String
  message : String
  deviceId : Nat
deriving DecidableEq

/-- One notification as stored by the notification service; metadata is
kept as a key-value list. -/
structure Notification where
  ntype : String
  title : String
  message : String
  meta : List (String × String)
deriving DecidableEq

/-- One Port row, a derived snapshot replaced wholesale by fingerprints. -/
structure PortRow where
  port : Nat
  protocol : String
  service : String
  state : String
  deviceId : Nat
deriving DecidableEq

/-- Combined state of the persistent store, the notification store and the
process-wide scan state. The emitted field is instrumentation: it records,
in order, the notifications added since the start of the current cycle, so
that statements about one cycle are unaffected by the 100-entry cap of the
notification store. -/
structure SysState where
  devices : List Device
  history : List HistoryRow
  events : List DomainEvent
  nextId : Nat
  settings : Option Settings
  notifs : List Notification
  emitted : List Notification
  ports : List PortRow
  isScanning : Bool
  scanLogs : List String
deriving DecidableEq

/-- Environment of one cycle: the wall-clock strings that appear in log
lines (held constant within the cycle), the sweep outcome, the local
interfaces and host identity used for self synthesis, and the resolver
results. -/
structure CycleEnv where
  ts : String
  durSecs : String
  sweep : Except String (List RawHost)
  ifaces : List Iface
  selfHostname : String
  selfOsInfo : String
  rs : ResolverEnv

/-- Append one line to the capped scan log: push, then drop the oldest
line when the buffer exceeds 50 lines. -/
def slog (s : SysState) (ts msg : String) : SysState :=
  let l := s.scanLogs ++ ["[" ++ ts ++ "] " ++ msg]
  { s with scanLogs := if l.length > 50 then l.drop 1 else l }

/-- Append several log lines in order. -/
def slogAll (s : SysState) (ts : String) (msgs : List String) : SysState :=
  msgs.foldl (fun a m => slog a ts m) s

/-- Add a notification: newest first, capped at 100 entries; also recorded
in the per-cycle emitted trace. -/
def addNotif (s : SysState) (n : Notification) : SysState :=
  { s with notifs := ((n :: s.notifs).take 100), emitted := s.emitted ++ [n] }

/-- Read the online-notification option, false when no settings row. -/
def notifyOnlineB : Option Settings → Bool
  | some st => st.notifyOnline
  | none => false

/-- Read the offline-notification option, false when no settings row. -/
def notifyOfflineB : Option Settings → Bool
  | some st => st.notifyOffline
  | none => false

/-- Read the new-device-notification option, false when no settings row. -/
def notifyNewDeviceB : Option Settings → Bool
  | some st => st.notifyNewDevice
  | none => false

/-- getLocalSubnet from the scanner service: the configured range when
set, else a range derived from the first external IPv4 interface, else the
default. Returns the range together with the log lines it prints. -/
def getLocalSubnet (settings : Option Settings) (ifaces : List Iface) : String × List String :=
  let conf := match settings with
    | some st => st.ipRange
    | none => ""
  if conf ≠ "" then (conf, ["Using configured IP Range: " ++ conf])
  else
    match ifaces.find? (fun i => i.family == "IPv4" && !i.internal) with
    | some i =>
      let cidr := netmaskToCIDR i.netmask
      let network := calculateNetworkAddress i.address i.netmask
      let range := network ++ "/" ++ toString cidr
      (range, ["Auto-detected Subnet: " ++ range ++ " (via " ++ i.name ++ ")"])
    | none => ("192.168.1.0/24", ["Could not auto-detect subnet, falling back to default."])

/-- Self synthesis step of the completion handler: for every external IPv4
interface whose address is not already among the swept hosts, append an
entry for it (the source also sets openPorts and osNmap on the entry,
which reconciliation never reads). Returns the extended host list and the
log lines printed while extending it. -/
def includeSelfAux (selfHostname : String) : List Iface → List RawHost → List RawHost × List String
  | [], data => (data, [])
  | i :: rest, data =>
    if i.family == "IPv4" && !i.internal then
      if (data.find? (fun d => d.ip == i.address)).isSome then
        includeSelfAux selfHostname rest data
      else
        let entry : RawHost :=
          { ip := i.address, mac := i.mac, hostname := selfHostname,
            vendor := "Self (Lantern Host)" }
        let r := includeSelfAux selfHostname rest (data ++ [entry])
        (r.1, ("Adding Host Device: " ++ i.address) :: r.2)
    else includeSelfAux selfHostname rest data

/-- The host list one cycle reconciles: the sweep data extended by the
synthesized self entries. -/
def processedHosts (env : CycleEnv) (data : List RawHost) : List RawHost :=
  (includeSelfAux env.selfHostname env.ifaces data).1

/-- One swept host after the enrichment step: the merged display name and
the classifier result (with the OS string still empty at this stage).
Hosts without a MAC get a null name and the unknown type. -/
structure Enriched where
  ip : String
  mac : String
  hostname : String
  vendor : String
  finalName : String
  htype : String
deriving DecidableEq

/-- Enrichment of one swept host. -/
def enrichHost (rs : ResolverEnv) (h : RawHost) : Enriched :=
  if h.mac == "" then
    { ip := h.ip, mac := h.mac, hostname := h.hostname, vendor := h.vendor,
      finalName := "", htype := "unknown" }
  else
    { ip := h.ip, mac := h.mac, hostname := h.hostname, vendor := h.vendor,
      finalName := computeFinalName rs h, htype := guessType h.vendor "" }

/-- The enriched host list of one cycle. -/
def enrichedHosts (env : CycleEnv) (data : List RawHost) : List Enriched :=
  (processedHosts env data).map (enrichHost env.rs)

/-- The non-empty MACs of a host list. -/
def macsOf (hosts : List Enriched) : List String :=
  (hosts.map (fun h => h.mac)).filter (fun m => !(m == ""))

/-- Update applied to an existing device when its MAC is re-seen: IP and
status refresh unconditionally, vendor refreshes whenever the sweep
carries one, name is kept once user-set (different from the literal
default and from the stored IP), type is kept once known. -/
def applyUpdate (existing : Device) (h : Enriched) : Device :=
  { existing with
    ip := h.ip
    status := "online"
    vendor := if h.vendor ≠ "" then h.vendor else existing.vendor
    name := if existing.name ≠ "" ∧ existing.name ≠ "New Device" ∧ existing.name ≠ existing.ip
            then existing.name
            else if h.finalName ≠ "" then h.finalName else existing.name
    type := if existing.type ≠ "" ∧ existing.type ≠ "unknown" then existing.type else h.htype }

/-- Row created for a first-seen MAC. -/
def freshDevice (nid : Nat) (h : Enriched) : Device :=
  { id := nid, mac := h.mac, ip := h.ip, vendor := h.vendor,
    name := if h.finalName ≠ "" then h.finalName else "New Device",
    status := "online", type := h.htype, os := "", details := "", tags := [] }

/-- Notification sent when a device changed IP, with old and new IP in the
metadata. -/
def ipChangeNotif (existing : Device) (h : Enriched) : Notification :=
  { ntype := "device_status", title := "IP Address Changed",
    message := existing.name ++ " is now at " ++ h.ip ++ " (was " ++ existing.ip ++ ").",
    meta := [("deviceId", toString existing.id), ("oldIp", existing.ip), ("newIp", h.ip)] }

/-- Notification sent when a device came back online. -/
def onlineNotif (existing : Device) : Notification :=
  { ntype := "device_status", title := "Device Online",
    message := existing.name ++ " is back online.",
    meta := [("deviceId", toString existing.id)] }

/-- Notification sent for a newly discovered device. -/
def newDeviceNotif (nd : Device) : Notification :=
  { ntype := "new_device", title := "New Device Discovered",
    message := nd.name ++ " (" ++ nd.ip ++ ") joined the network.",
    meta := [("deviceId", toString nd.id), ("ip", nd.ip)] }

/-- Summary notification of the first-ever scan. -/
def summaryNotif (n : Nat) : Notification :=
  { ntype := "new_device", title := "First Scan Completed",
    message := "Initial scan found " ++ toString n ++ " devices on the network.",
    meta := [("type", "summary"), ("count", toString n)] }

/-- Notification sent when a device went offline. -/
def offlineNotif (d : Device) : Notification :=
  { ntype := "device_status", title := "Device Offline",
    message := d.name ++ " is now offline.",
    meta := [("deviceId", toString d.id)] }

/-- State threaded through the sequential reconciliation loop: the system
state plus the first-scan name buffer and the new-device counter. -/
structure RecSt where
  sys : SysState
  buffer : List String
  newCount : Nat

/-- Reconciliation of one enriched host, following the source loop body:
hosts without a MAC are skipped; a host whose MAC matches an existing row
updates it (with an IP-change notification first when the IP differs, an
online history row, and an online notification when opted in and the row
was offline); a first-seen MAC creates the row, logs a new_device event,
then either buffers the name (first-ever scan) or notifies, and appends an
online history row. The asynchronous deep scan the source dispatches here
is modelled separately by scanDeviceDetails. -/
def reconcileStep (env : CycleEnv) (initialDeviceCount : Nat) (st : RecSt) (h : Enriched) : RecSt :=
  if h.mac == "" then st
  else
    match st.sys.devices.find? (fun d => d.mac == h.mac) with
    | some existing =>
      let s1 := if existing.ip ≠ h.ip then
          addNotif
            (slog st.sys env.ts
              ("Device " ++ existing.name ++ " changed IP: " ++ existing.ip ++ " -> " ++ h.ip))
            (ipChangeNotif existing h)
        else st.sys
      let s2 : SysState := { s1 with
        devices := s1.devices.map (fun d => if d.mac == h.mac then applyUpdate d h else d) }
      let s3 : SysState := { s2 with
        history := s2.history ++ [{ deviceId := existing.id, status := "online", latency := some 0 }] }
      let s4 := if (notifyOnlineB s3.settings || existing.tags.contains "notify-online")
                   ∧ existing.status = "offline"
        then addNotif s3 (onlineNotif existing) else s3
      { st with sys := s4 }
    | none =>
      let nd := freshDevice st.sys.nextId h
      let s1 : SysState := { st.sys with devices := st.sys.devices ++ [nd], nextId := st.sys.nextId + 1 }
      let s2 : SysState := { s1 with events := s1.events ++
        [{ etype := "new_device",
           message := "New Device found: " ++ nd.ip ++ " (" ++ nd.mac ++ ")",
           deviceId := nd.id }] }
      let bn : SysState × List String :=
        if notifyNewDeviceB s2.settings then
          if initialDeviceCount = 0 then (s2, st.buffer ++ [nd.name ++ " (" ++ nd.ip ++ ")"])
          else (addNotif s2 (newDeviceNotif nd), st.buffer)
        else (s2, st.buffer)
      let s4 := slog bn.1 env.ts ("Queuing deep scan for new device: " ++ nd.ip)
      let s5 : SysState := { s4 with
        history := s4.history ++ [{ deviceId := nd.id, status := "online", latency := none }] }
      { sys := s5, buffer := bn.2, newCount := st.newCount + 1 }

/-- The sequential reconciliation loop over the enriched hosts. -/
def reconcile (env : CycleEnv) (initialDeviceCount : Nat) : List Enriched → RecSt → RecSt
  | [], st => st
  | h :: t, st => reconcile env initialDeviceCount t (reconcileStep env initialDeviceCount st h)

/-- Offline handling of one registry device absent from the observed MAC
set: append an offline history row regardless of prior state; only when
the stored status was online, flip it, log an offline event, and notify
when opted in. -/
def offlineStep (env : CycleEnv) (s : SysState) (device : Device) : SysState :=
  let s1 : SysState := { s with
    history := s.history ++ [{ deviceId := device.id, status := "offline", latency := none }] }
  if device.status = "online" then
    let nm := if device.name ≠ "" then device.name else device.ip
    let s2 := slog s1 env.ts ("Device went offline: " ++ nm)
    let s3 : SysState := { s2 with
      devices := s2.devices.map (fun d => if d.id == device.id then { d with status := "offline" } else d) }
    let s4 : SysState := { s3 with events := s3.events ++
      [{ etype := "offline", message := "Device " ++ nm ++ " went offline", deviceId := device.id }] }
    if notifyOfflineB s4.settings || device.tags.contains "notify-offline"
    then addNotif s4 (offlineNotif device) else s4
  else s1

/-- The loop over the snapshot of devices absent from the observed MACs. -/
def offlinePass (env : CycleEnv) : List Device → SysState → SysState
  | [], s => s
  | d :: t, s => offlinePass env t (offlineStep env s d)

/-- The observed MAC list of one cycle: the MACs of the sweep data, taken
before self synthesis (the source computes foundMacs from the raw nmap
data, so synthesized self entries are not in it). -/
def foundMacsOf (data0 : List RawHost) : List String :=
  (data0.map (fun d => d.mac)).filter (fun m => !(m == ""))

/-- Log lines the completion handler prints before the reconciliation
loop: duration, host count, self-synthesis lines, resolver progress. -/
def completionLogState (env : CycleEnv) (data0 : List RawHost) (s : SysState) : SysState :=
  let s := slog s env.ts ("Scan completed in " ++ env.durSecs ++ "s")
  let s := slog s env.ts ("Found " ++ toString data0.length ++ " active devices")
  let s := slogAll s env.ts (includeSelfAux env.selfHostname env.ifaces data0).2
  let s := slog s env.ts "Resolving hostnames (mDNS)..."
  let s := slog s env.ts ("mDNS resolved " ++ toString env.rs.mdnsMap.length ++ " hosts")
  let s := slog s env.ts "Resolving hostnames (SSDP)..."
  let s := slog s env.ts ("SSDP resolved " ++ toString env.rs.ssdpMap.length ++ " hosts")
  slog s env.ts "Resolving hostnames (DNS & NetBIOS)..."

/-- Completion handler of the quick scan, following the source order:
snapshot the device count and the observed MAC list (taken from the sweep
data before self synthesis), log progress, synthesize self entries, run
the resolvers, enrich, reconcile sequentially, log the registration count,
send the first-scan summary when due, then process the devices whose MAC
was not observed. The settings lastScan write is a timestamp only and is
not modelled; the scanning flag stays set until the grace timeout. -/
def scanComplete (env : CycleEnv) (data0 : List RawHost) (s : SysState) : SysState :=
  let initialDeviceCount := s.devices.length
  let sL := completionLogState env data0 s
  let rst := reconcile env initialDeviceCount (enrichedHosts env data0)
    { sys := sL, buffer := [], newCount := 0 }
  let s2 := if rst.newCount > 0
    then slog rst.sys env.ts ("Registered " ++ toString rst.newCount ++ " new devices")
    else rst.sys
  let s3 := if initialDeviceCount = 0 ∧ rst.buffer.length > 0
    then addNotif s2 (summaryNotif rst.buffer.length) else s2
  let offlineList := s3.devices.filter (fun d => !((foundMacsOf data0).contains d.mac))
  slog (offlinePass env offlineList s3) env.ts "Scan Complete."

/-- Cycle preamble of runScan: set the scanning flag, reset the log buffer
and the per-cycle emitted trace, log the opening lines, determine the
subnet and log the DNS configuration. -/
def cyclePreamble (env : CycleEnv) (s0 : SysState) : SysState :=
  let s := { s0 with isScanning := true, scanLogs := [], emitted := [] }
  let s := slog s env.ts "Initiating Network Scan..."
  let sub := getLocalSubnet s.settings env.ifaces
  let s := slogAll s env.ts sub.2
  let s := match s.settings with
    | some st => if st.dnsServer ≠ "" then slog s env.ts ("Configured Custom DNS: " ++ st.dnsServer) else s
    | none => s
  slog s env.ts ("Target Range: " ++ sub.1)

/-- runScan: the mutual-exclusion gate, the cycle preamble, then either
the completion handler on the sweep result or the error path that clears
the flag. -/
def runScan (env : CycleEnv) (s : SysState) : SysState :=
  if s.isScanning then s
  else
    match env.sweep with
    | Except.error e =>
      { (slog (cyclePreamble env s) env.ts ("Scan Error: " ++ e)) with isScanning := false }
    | Except.ok data => scanComplete env data (cyclePreamble env s)

/-- The two-second timeout that clears the scanning flag after the
completion handler finished. -/
def graceElapse (s : SysState) : SysState := { s with isScanning := false }

/-- One fingerprinted open port as returned by the prober. -/
structure FpPort where
  port : Nat
  protocol : String
  service : String
deriving DecidableEq

/-- One fingerprint result as returned by the prober. -/
structure FpResult where
  osNmap : String
  openPorts : List FpPort
deriving DecidableEq

/-- Stand-in for JSON.stringify of the fingerprint result stored in the
details column; the exact rendering is irrelevant to every claim. -/
def fpSerialize (r : FpResult) : String := "\x7b\"osNmap\":\"" ++ r.osNmap ++ "\"\x7d"

/-- Field updates applied to the device row a fingerprint lands on. -/
def applyFingerprint (d : Device) (r : FpResult) : Device :=
  { d with
    os := r.osNmap
    details := fpSerialize r
    type := if d.type = "unknown" ∨ d.type = "new_device" then guessType d.vendor r.osNmap else d.type }

/-- Completion handler of the targeted OS scan: with a non-empty result,
look up the first device row whose current IP equals the scanned IP,
update its os, details and (when still unknown) type, and replace its Port
rows wholesale. -/
def scanDeviceDetailsComplete (ip : String) (data : List FpResult) (s : SysState) : SysState :=
  match data with
  | [] => s
  | result :: _ =>
    match s.devices.find? (fun d => d.ip == ip) with
    | none => s
    | some device =>
      let s1 : SysState := { s with
        devices := s.devices.map (fun d => if d.id == device.id then applyFingerprint d result else d) }
      { s1 with ports :=
        (s1.ports.filter (fun p => !(p.deviceId == device.id))) ++
          result.openPorts.map (fun p =>
            ({ port := p.port, protocol := p.protocol, service := p.service,
               state := "open", deviceId := device.id } : PortRow)) }

/-- scanDeviceDetails: skip when the triggering device snapshot already has
an OS; otherwise the deep scan runs and its completion handler is applied
(a failed or empty probe is the empty result list and changes nothing). -/
def scanDeviceDetails (targetIp targetOs : String) (data : List FpResult) (s : SysState) : SysState :=
  if targetOs ≠ "" then s
  else scanDeviceDetailsComplete targetIp data s

/-- Registry well-formedness: device ids are distinct, MACs are distinct
(the unique column), and every id is below the id counter. -/
def Inv (s : SysState) : Prop :=
  (s.devices.map Device.id).Nodup ∧
  (s.devices.map Device.mac).Nodup ∧
  ∀ d ∈ s.devices, d.id < s.nextId

/-- Number of history rows for a device id. -/
def histCount (i : Nat) (s : SysState) : Nat :=
  s.history.countP (fun r => r.deviceId == i)

/-- Number of offline history rows for a device id. -/
def offHistCount (i : Nat) (s : SysState) : Nat :=
  s.history.countP (fun r => r.deviceId == i && r.status == "offline")

/-- Number of offline events for a device id. -/
def offEventCount (i : Nat) (s : SysState) : Nat :=
  s.events.countP (fun e => e.deviceId == i && e.etype == "offline")

/-- Number of new_device events. -/
def newDeviceEventCount (s : SysState) : Nat :=
  s.events.countP (fun e => e.etype == "new_device")

/-- Number of ip_change events (the claimed event kind). -/
def ipChangeEventCount (s : SysState) : Nat :=
  s.events.countP (fun e => e.etype == "ip_change")

/-- Resolver environment in which every strategy fails. -/
def emptyRs : ResolverEnv :=
  { mdnsMap := [], ssdpMap := [], dnsReverse := fun _ => [], netbios := fun _ => none }

/-- System state with an empty store and an idle scanner. -/
def emptyState : SysState :=
  { devices := [], history := [], events := [], nextId := 0, settings := none,
    notifs := [], emitted := [], ports := [], isScanning := false, scanLogs := [] }

/-- Existing device for the IP-change scenario. -/
def devC1 : Device :=
  { id := 0, mac := "aa:bb:cc:dd:ee:01", ip := "10.0.0.5", name := "printer",
    vendor := "Acme", type := "unknown", status := "online", os := "", details := "", tags := [] }

/-- Registry holding only the IP-change device. -/
def sC1 : SysState := { emptyState with devices := [devC1], nextId := 1 }

/-- Cycle environment whose sweep re-sees the device at a new IP. -/
def envC1 : CycleEnv :=
  { ts := "T", durSecs := "1",
    sweep := Except.ok [{ ip := "10.0.0.9", mac := "aa:bb:cc:dd:ee:01", hostname := "", vendor := "" }],
    ifaces := [], selfHostname := "host", selfOsInfo := "", rs := emptyRs }

/-- Existing device with a non-empty stored vendor. -/
def devC2 : Device :=
  { id := 0, mac := "aa:bb:cc:dd:ee:02", ip := "10.0.0.5", name := "tablet",
    vendor := "Apple", type := "mobile", status := "online", os := "", details := "", tags := [] }

/-- Registry holding only the vendor device. -/
def sC2 : SysState := { emptyState with devices := [devC2], nextId := 1 }

/-- Cycle environment whose sweep reports a different non-empty vendor for
the same MAC at the same IP. -/
def envC2 : CycleEnv :=
  { ts := "T", durSecs := "1",
    sweep := Except.ok [{ ip := "10.0.0.5", mac := "aa:bb:cc:dd:ee:02", hostname := "", vendor := "Dell" }],
    ifaces := [], selfHostname := "host", selfOsInfo := "", rs := emptyRs }

/-- Sweep entry for the IP-change scenario. -/
def hostC1 : RawHost := { ip := "10.0.0.9", mac := "aa:bb:cc:dd:ee:01", hostname := "", vendor := "" }

/-- Sweep entry reporting a fresh vendor for the vendor-refresh scenario. -/
def hostC2 : RawHost := { ip := "10.0.0.5", mac := "aa:bb:cc:dd:ee:02", hostname := "", vendor := "Dell" }

/-- External IPv4 interface of the scanning host. -/
def ifaceC3 : Iface :=
  { name := "eth0", family := "IPv4", internal := false,
    address := "192.168.1.50", netmask := "255.255.255.0", mac := "aa:bb" }

/-- Cycle environment whose sweep misses the host itself, forcing self
synthesis. -/
def envC3 : CycleEnv :=
  { ts := "T", durSecs := "1", sweep := Except.ok [], ifaces := [ifaceC3],
    selfHostname := "lantern-host", selfOsInfo := "Linux 6.1", rs := emptyRs }

/-- Sweep data with two entries carrying the same MAC. -/
def dataC5 : List RawHost :=
  [{ ip := "10.0.0.1", mac := "aa:aa:aa:aa:aa:01", hostname := "", vendor := "" },
   { ip := "10.0.0.1", mac := "aa:aa:aa:aa:aa:01", hostname := "", vendor := "" }]

/-- Cycle environment combining a duplicate-MAC sweep with an interface
that forces a synthesized self entry. -/
def envC5 : CycleEnv :=
  { ts := "T", durSecs := "1", sweep := Except.ok dataC5, ifaces := [ifaceC3],
    selfHostname := "lantern-host", selfOsInfo := "Linux 6.1", rs := emptyRs }

/-- Settings row with every notification option off. -/
def settingsOff : Settings :=
  { ipRange := "", dnsServer := "", notifyOnline := false, notifyOffline := false,
    notifyNewDevice := false, scanInterval := 5 }

/-- Empty registry whose settings row has new-device notifications off. -/
def sC7 : SysState := { emptyState with settings := some settingsOff }

/-- Cycle environment discovering one device on an empty registry. -/
def envC7 : CycleEnv :=
  { ts := "T", durSecs := "1",
    sweep := Except.ok [{ ip := "10.0.0.3", mac := "aa:bb:cc:dd:ee:07", hostname := "", vendor := "" }],
    ifaces := [], selfHostname := "host", selfOsInfo := "", rs := emptyRs }

/-- Settings row with new-device notifications on. -/
def settingsOn : Settings :=
  { ipRange := "", dnsServer := "", notifyOnline := false, notifyOffline := false,
    notifyNewDevice := true, scanInterval := 5 }

/-- Empty registry whose settings row has new-device notifications on. -/
def sC7on : SysState := { emptyState with settings := some settingsOn }

/-- Sweep entry of the first-scan scenario. -/
def hostC7 : RawHost := { ip := "10.0.0.3", mac := "aa:bb:cc:dd:ee:07", hostname := "", vendor := "" }

/-- First device row sharing the fingerprinted IP (not the trigger). -/
def devC8a : Device :=
  { id := 1, mac := "aa:bb:cc:dd:ee:0a", ip := "10.0.0.5", name := "older",
    vendor := "", type := "unknown", status := "offline", os := "", details := "", tags := [] }

/-- Second device row sharing the fingerprinted IP (the trigger target). -/
def devC8b : Device :=
  { id := 2, mac := "aa:bb:cc:dd:ee:0b", ip := "10.0.0.5", name := "newer",
    vendor := "", type := "unknown", status := "online", os := "", details := "", tags := [] }

/-- Registry holding both devices with the same IP. -/
def sC8 : SysState := { emptyState with devices := [devC8a, devC8b], nextId := 3 }

/-- Fingerprint result for the frame counterexample. -/
def resC8 : FpResult := { osNmap := "Linux 5.4", openPorts := [] }

/-- Busy state used to exercise the mutual-exclusion gate. -/
def sBusy : SysState := { emptyState with isScanning := true }

/-- Cycle environment for the mutual-exclusion witness. -/
def envC10 : CycleEnv :=
  { ts := "T", durSecs := "1", sweep := Except.ok [], ifaces := [],
    selfHostname := "host", selfOsInfo := "", rs := emptyRs }

@[simp] lemma slog_devices (s : SysState) (ts m : String) : (slog s ts m).devices = s.devices := rfl
@[simp] lemma slog_history (s : SysState) (ts m : String) : (slog s ts m).history = s.history := rfl
@[simp] lemma slog_events (s : SysState) (ts m : String) : (slog s ts m).events = s.events := rfl
@[simp] lemma slog_nextId (s : SysState) (ts m : String) : (slog s ts m).nextId = s.nextId := rfl
@[simp] lemma slog_settings (s : SysState) (ts m : String) : (slog s ts m).settings = s.settings := rfl
@[simp] lemma slog_emitted (s : SysState) (ts m : String) : (slog s ts m).emitted = s.emitted := rfl
@[simp] lemma slog_notifs (s : SysState) (ts m : String) : (slog s ts m).notifs = s.notifs := rfl
@[simp] lemma slog_ports (s : SysState) (ts m : String) : (slog s ts m).ports = s.ports := rfl
@[simp] lemma slog_isScanning (s : SysState) (ts m : String) : (slog s ts m).isScanning = s.isScanning := rfl

@[simp] lemma addNotif_devices (s : SysState) (n : Notification) : (addNotif s n).devices = s.devices := rfl
@[simp] lemma addNotif_history (s : SysState) (n : Notification) : (addNotif s n).history = s.history := rfl
@[simp] lemma addNotif_events (s : SysState) (n : Notification) : (addNotif s n).events = s.events := rfl
@[simp] lemma addNotif_nextId (s : SysState) (n : Notification) : (addNotif s n).nextId = s.nextId := rfl
@[simp] lemma addNotif_settings (s : SysState) (n : Notification) : (addNotif s n).settings = s.settings := rfl
@[simp] lemma addNotif_emitted (s : SysState) (n : Notification) : (addNotif s n).emitted = s.emitted ++ [n] := rfl
@[simp] lemma addNotif_ports (s : SysState) (n : Notification) : (addNotif s n).ports = s.ports := rfl
@[simp] lemma addNotif_isScanning (s : SysState) (n : Notification) : (addNotif s n).isScanning = s.isScanning := rfl

@[simp] lemma freshDevice_id (nid : Nat) (h : Enriched) : (freshDevice nid h).id = nid := rfl
@[simp] lemma freshDevice_mac (nid : Nat) (h : Enriched) : (freshDevice nid h).mac = h.mac := rfl
@[simp] lemma freshDevice_status (nid : Nat) (h : Enriched) : (freshDevice nid h).status = "online" := rfl
@[simp] lemma applyUpdate_id (d : Device) (h : Enriched) : (applyUpdate d h).id = d.id := rfl
@[simp] lemma applyUpdate_mac (d : Device) (h : Enriched) : (applyUpdate d h).mac = d.mac := rfl
@[simp] lemma applyUpdate_status (d : Device) (h : Enriched) : (applyUpdate d h).status = "online" := rfl

lemma reconcileStep_skip (env : CycleEnv) (ic : Nat) (st : RecSt) (h : Enriched)
    (hm : (h.mac == "") = true) : reconcileStep env ic st h = st := by
  simp [reconcileStep, hm]

lemma reconcileStep_matched (env : CycleEnv) (ic : Nat) (st : RecSt) (h : Enriched) (e : Device)
    (hm : (h.mac == "") = false)
    (hf : st.sys.devices.find? (fun d => d.mac == h.mac) = some e) :
    (reconcileStep env ic st h).sys.devices
        = st.sys.devices.map (fun d => if d.mac == h.mac then applyUpdate d h else d) ∧
    (reconcileStep env ic st h).sys.history
        = st.sys.history ++ [{ deviceId := e.id, status := "online", latency := some 0 }] ∧
    (reconcileStep env ic st h).sys.events = st.sys.events ∧
    (reconcileStep env ic st h).sys.nextId = st.sys.nextId ∧
    (reconcileStep env ic st h).sys.settings = st.sys.settings ∧
    (reconcileStep env ic st h).buffer = st.buffer ∧
    (reconcileStep env ic st h).newCount = st.newCount ∧
    (reconcileStep env ic st h).sys.emitted
        = st.sys.emitted
          ++ (if e.ip ≠ h.ip then [ipChangeNotif e h] else [])
          ++ (if (notifyOnlineB st.sys.settings || e.tags.contains "notify-online") ∧ e.status = "offline"
              then [onlineNotif e] else []) := by
  simp only [reconcileStep, hm, Bool.false_eq_true, if_false, hf]
  split_ifs <;>
    simp_all [slog, addNotif]

lemma reconcileStep_created (env : CycleEnv) (ic : Nat) (st : RecSt) (h : Enriched)
    (hm : (h.mac == "") = false)
    (hf : st.sys.devices.find? (fun d => d.mac == h.mac) = none) :
    (reconcileStep env ic st h).sys.devices
        = st.sys.devices ++ [freshDevice st.sys.nextId h] ∧
    (reconcileStep env ic st h).sys.history
        = st.sys.history ++ [{ deviceId := st.sys.nextId, status := "online", latency := none }] ∧
    (reconcileStep env ic st h).sys.events
        = st.sys.events ++
          [{ etype := "new_device",
             message := "New Device found: " ++ (freshDevice st.sys.nextId h).ip ++ " (" ++ (freshDevice st.sys.nextId h).mac ++ ")",
             deviceId := st.sys.nextId }] ∧
    (reconcileStep env ic st h).sys.nextId = st.sys.nextId + 1 ∧
    (reconcileStep env ic st h).sys.settings = st.sys.settings ∧
    (reconcileStep env ic st h).buffer
        = st.buffer ++ (if notifyNewDeviceB st.sys.settings ∧ ic = 0
            then [(freshDevice st.sys.nextId h).name ++ " (" ++ (freshDevice st.sys.nextId h).ip ++ ")"] else []) ∧
    (reconcileStep env ic st h).newCount = st.newCount + 1 ∧
    (reconcileStep env ic st h).sys.emitted
        = st.sys.emitted ++ (if notifyNewDeviceB st.sys.settings ∧ ¬ic = 0
            then [newDeviceNotif (freshDevice st.sys.nextId h)] else []) := by
  simp only [reconcileStep, hm, Bool.false_eq_true, if_false, hf]
  split_ifs <;>
    simp_all [slog, addNotif]

lemma offlineStep_char (env : CycleEnv) (s : SysState) (device : Device) :
    (offlineStep env s device).history
        = s.history ++ [{ deviceId := device.id, status := "offline", latency := none }] ∧
    (offlineStep env s device).events
        = s.events ++ (if device.status = "online"
            then [{ etype := "offline",
                    message := "Device " ++ (if device.name ≠ "" then device.name else device.ip) ++ " went offline",
                    deviceId := device.id }] else []) ∧
    (offlineStep env s device).devices
        = (if device.status = "online"
            then s.devices.map (fun d => if d.id == device.id then { d with status := "offline" } else d)
            else s.devices) ∧
    (offlineStep env s device).nextId = s.nextId ∧
    (offlineStep env s device).settings = s.settings ∧
    (offlineStep env s device).ports = s.ports ∧
    (offlineStep env s device).emitted
        = s.emitted ++ (if device.status = "online"
              ∧ (notifyOfflineB s.settings || device.tags.contains "notify-offline") = true
            then [offlineNotif device] else []) := by
  simp only [offlineStep]
  split_ifs <;> simp_all [slog, addNotif]


lemma offlinePass_history (env : CycleEnv) (L : List Device) (s : SysState) :
    (offlinePass env L s).history
      = s.history ++ L.map (fun d => { deviceId := d.id, status := "offline", latency := none }) := by
  induction L generalizing s with
  | nil => simp [offlinePass]
  | cons d t ih =>
    simp only [offlinePass, ih, (offlineStep_char env s d).1]
    simp

lemma offlinePass_settings (env : CycleEnv) (L : List Device) (s : SysState) :
    (offlinePass env L s).settings = s.settings := by
  induction L generalizing s with
  | nil => simp [offlinePass]
  | cons d t ih =>
    simp only [offlinePass, ih, (offlineStep_char env s d).2.2.2.2.1]

lemma offlinePass_nextId (env : CycleEnv) (L : List Device) (s : SysState) :
    (offlinePass env L s).nextId = s.nextId := by
  induction L generalizing s with
  | nil => simp [offlinePass]
  | cons d t ih =>
    simp only [offlinePass, ih, (offlineStep_char env s d).2.2.2.1]

lemma offlinePass_ports (env : CycleEnv) (L : List Device) (s : SysState) :
    (offlinePass env L s).ports = s.ports := by
  induction L generalizing s with
  | nil => simp [offlinePass]
  | cons d t ih =>
    simp only [offlinePass, ih, (offlineStep_char env s d).2.2.2.2.2.1]

lemma offlinePass_events (env : CycleEnv) (L : List Device) (s : SysState) :
    (offlinePass env L s).events
      = s.events ++ (L.filter (fun x => x.status == "online")).map
          (fun d => { etype := "offline",
                      message := "Device " ++ (if d.name ≠ "" then d.name else d.ip) ++ " went offline",
                      deviceId := d.id }) := by
  induction L generalizing s with
  | nil => simp [offlinePass]
  | cons d t ih =>
    simp only [offlinePass, ih, (offlineStep_char env s d).2.1, List.filter_cons]
    by_cases hd : d.status = "online" <;> simp [hd]

lemma offlinePass_emitted (env : CycleEnv) (L : List Device) (s : SysState) :
    (offlinePass env L s).emitted
      = s.emitted ++ (L.filter (fun x =>
            x.status == "online" && (notifyOfflineB s.settings || x.tags.contains "notify-offline"))).map
          offlineNotif := by
  induction L generalizing s with
  | nil => simp [offlinePass]
  | cons d t ih =>
    have hset := (offlineStep_char env s d).2.2.2.2.1
    simp only [offlinePass, ih, hset, (offlineStep_char env s d).2.2.2.2.2.2, List.filter_cons]
    by_cases hd : d.status = "online" <;>
      by_cases hn : (notifyOfflineB s.settings || d.tags.contains "notify-offline") = true <;>
        simp_all


lemma offlinePass_devices_id (env : CycleEnv) (L : List Device) (s : SysState) :
    (offlinePass env L s).devices.map Device.id = s.devices.map Device.id := by
  induction L generalizing s with
  | nil => simp [offlinePass]
  | cons d t ih =>
    simp only [offlinePass, ih, (offlineStep_char env s d).2.2.1]
    by_cases hd : d.status = "online" <;> simp [hd, List.map_map]
    intro a _
    by_cases h2 : a.id = d.id <;> simp [h2]

lemma offlinePass_devices_mac (env : CycleEnv) (L : List Device) (s : SysState) :
    (offlinePass env L s).devices.map Device.mac = s.devices.map Device.mac := by
  induction L generalizing s with
  | nil => simp [offlinePass]
  | cons d t ih =>
    simp only [offlinePass, ih, (offlineStep_char env s d).2.2.1]
    by_cases hd : d.status = "online" <;> simp [hd, List.map_map]
    intro a _
    by_cases h2 : a.id = d.id <;> simp [h2]

lemma offlinePass_back (env : CycleEnv) (L : List Device) (s : SysState) :
    ∀ x ∈ (offlinePass env L s).devices, ∃ y ∈ s.devices,
      x.id = y.id ∧ x.mac = y.mac ∧ x.ip = y.ip ∧ x.vendor = y.vendor ∧
      x.name = y.name ∧ x.type = y.type ∧ (x.status = y.status ∨ x.status = "offline") := by
  induction L generalizing s with
  | nil =>
    intro x hx
    simp only [offlinePass] at hx
    exact ⟨x, hx, rfl, rfl, rfl, rfl, rfl, rfl, Or.inl rfl⟩
  | cons d t ih =>
    intro x hx
    simp only [offlinePass] at hx
    obtain ⟨y, hy, hf⟩ := ih _ x hx
    rw [(offlineStep_char env s d).2.2.1] at hy
    by_cases hd : d.status = "online"
    · rw [if_pos hd] at hy
      obtain ⟨z, hz, hez⟩ := List.mem_map.mp hy
      refine ⟨z, hz, ?_⟩
      by_cases h2 : (z.id == d.id) = true
      · rw [if_pos h2] at hez
        rw [← hez] at hf
        exact ⟨hf.1, hf.2.1, hf.2.2.1, hf.2.2.2.1, hf.2.2.2.2.1, hf.2.2.2.2.2.1,
          Or.inr (hf.2.2.2.2.2.2.elim (fun h3 => h3) (fun h3 => h3))⟩
      · rw [if_neg h2] at hez
        rw [← hez] at hf
        exact hf
    · rw [if_neg hd] at hy
      exact ⟨y, hy, hf⟩

lemma offlinePass_append (env : CycleEnv) (l1 l2 : List Device) (s : SysState) :
    offlinePass env (l1 ++ l2) s = offlinePass env l2 (offlinePass env l1 s) := by
  induction l1 generalizing s with
  | nil => simp [offlinePass]
  | cons d t ih => simp [offlinePass, ih]

lemma offlinePass_mem (env : CycleEnv) (L : List Device) (s : SysState) (d : Device)
    (hL : ∀ x ∈ L, ¬x.id = d.id) (hd : d ∈ s.devices) :
    d ∈ (offlinePass env L s).devices := by
  induction L generalizing s with
  | nil => simpa [offlinePass] using hd
  | cons e t ih =>
    simp only [offlinePass]
    refine ih _ (fun x hx => hL x (List.mem_cons_of_mem _ hx)) ?_
    rw [(offlineStep_char env s e).2.2.1]
    by_cases he : e.status = "online"
    · rw [if_pos he]
      have : (d.id == e.id) = false := by
        simp [hL e (List.mem_cons_self e t)]
        intro hcontra
        exact absurd hcontra.symm (hL e (List.mem_cons_self e t))
      refine List.mem_map.mpr ⟨d, hd, ?_⟩
      simp at this
      simp [this]
    · rw [if_neg he]
      exact hd

lemma offlineStep_flips (env : CycleEnv) (s : SysState) (d : Device)
    (hd : d ∈ s.devices) (hon : d.status = "online") :
    ({ d with status := "offline" } : Device) ∈ (offlineStep env s d).devices := by
  rw [(offlineStep_char env s d).2.2.1, if_pos hon]
  exact List.mem_map.mpr ⟨d, hd, by simp⟩

lemma offlineStep_stays (env : CycleEnv) (s : SysState) (d : Device)
    (hd : d ∈ s.devices) (hon : ¬d.status = "online") :
    d ∈ (offlineStep env s d).devices := by
  rw [(offlineStep_char env s d).2.2.1, if_neg hon]
  exact hd

lemma nodup_map_inj {α β : Type} (f : α → β) {l : List α} (hn : (l.map f).Nodup) :
    ∀ a ∈ l, ∀ b ∈ l, f a = f b → a = b := by
  induction l with
  | nil => intro a ha; exact absurd ha (List.not_mem_nil a)
  | cons x t ih =>
    simp only [List.map_cons, List.nodup_cons] at hn
    intro a ha b hb hab
    rcases List.mem_cons.mp ha with rfl | ha2 <;> rcases List.mem_cons.mp hb with rfl | hb2
    · rfl
    · exact absurd (hab ▸ List.mem_map_of_mem f hb2) hn.1
    · exact absurd (hab ▸ List.mem_map_of_mem f ha2) hn.1
    · exact ih hn.2 a ha2 b hb2 hab
  
lemma filter_key_unique {α β : Type} [DecidableEq β] (f : α → β) (l : List α)
    (hn : (l.map f).Nodup) (x : α) (hx : x ∈ l) :
    (l.filter (fun y => f y == f x)).length = 1 := by
  induction l with
  | nil => exact absurd hx (List.not_mem_nil x)
  | cons a t ih =>
    simp only [List.map_cons, List.nodup_cons] at hn
    rcases List.mem_cons.mp hx with rfl | hx2
    · rw [List.filter_cons_of_pos (by simp)]
      have ht : t.filter (fun y => f y == f x) = [] := by
        refine List.filter_eq_nil_iff.mpr fun y hy => ?_
        simp only [beq_iff_eq]
        intro he
        exact hn.1 (he ▸ List.mem_map_of_mem f hy)
      simp [ht]
    · have hne : ¬f a = f x := fun he => hn.1 (he ▸ List.mem_map_of_mem f hx2)
      rw [List.filter_cons_of_neg (by simp [hne])]
      exact ih hn.2 hx2

lemma reconcile_cons (env : CycleEnv) (ic : Nat) (h : Enriched) (t : List Enriched) (st : RecSt) :
    reconcile env ic (h :: t) st = reconcile env ic t (reconcileStep env ic st h) := rfl

lemma reconcile_untouched (env : CycleEnv) (ic : Nat) (hosts : List Enriched) (st : RecSt) (d : Device)
    (hn : ∀ h2 ∈ hosts, h2.mac = "" ∨ ¬h2.mac = d.mac) (hd : d ∈ st.sys.devices) :
    d ∈ (reconcile env ic hosts st).sys.devices := by
  induction hosts generalizing st with
  | nil => exact hd
  | cons h t ih =>
    rw [reconcile_cons]
    refine ih _ (fun x hx => hn x (List.mem_cons_of_mem _ hx)) ?_
    by_cases hm : (h.mac == "") = true
    · rw [reconcileStep_skip env ic st h hm]
      exact hd
    · have hm2 : (h.mac == "") = false := by simpa using hm
      have hdm : (d.mac == h.mac) = false := by
        rcases hn h (List.mem_cons_self h t) with h1 | h1
        · exact absurd (by simp [h1]) hm
        · simp
          exact fun he => h1 he.symm
      cases hfind : st.sys.devices.find? (fun x => x.mac == h.mac) with
      | some e =>
        rw [(reconcileStep_matched env ic st h e hm2 hfind).1]
        exact List.mem_map.mpr ⟨d, hd, by simp [hdm]⟩
      | none =>
        rw [(reconcileStep_created env ic st h hm2 hfind).1]
        exact List.mem_append_left _ hd

lemma reconcile_offHist (env : CycleEnv) (ic : Nat) (hosts : List Enriched) (st : RecSt) (i : Nat) :
    offHistCount i (reconcile env ic hosts st).sys = offHistCount i st.sys := by
  induction hosts generalizing st with
  | nil => rfl
  | cons h t ih =>
    rw [reconcile_cons, ih]
    by_cases hm : (h.mac == "") = true
    · rw [reconcileStep_skip env ic st h hm]
    · have hm2 : (h.mac == "") = false := by simpa using hm
      cases hfind : st.sys.devices.find? (fun x => x.mac == h.mac) with
      | some e =>
        rw [offHistCount, (reconcileStep_matched env ic st h e hm2 hfind).2.1]
        simp [offHistCount]
      | none =>
        rw [offHistCount, (reconcileStep_created env ic st h hm2 hfind).2.1]
        simp [offHistCount]

lemma reconcile_offEvent (env : CycleEnv) (ic : Nat) (hosts : List Enriched) (st : RecSt) (i : Nat) :
    offEventCount i (reconcile env ic hosts st).sys = offEventCount i st.sys := by
  induction hosts generalizing st with
  | nil => rfl
  | cons h t ih =>
    rw [reconcile_cons, ih]
    by_cases hm : (h.mac == "") = true
    · rw [reconcileStep_skip env ic st h hm]
    · have hm2 : (h.mac == "") = false := by simpa using hm
      cases hfind : st.sys.devices.find? (fun x => x.mac == h.mac) with
      | some e =>
        rw [offEventCount, (reconcileStep_matched env ic st h e hm2 hfind).2.2.1]
        rfl
      | none =>
        rw [offEventCount, (reconcileStep_created env ic st h hm2 hfind).2.2.1]
        simp [offEventCount]

lemma reconcile_ipChange (env : CycleEnv) (ic : Nat) (hosts : List Enriched) (st : RecSt) :
    ipChangeEventCount (reconcile env ic hosts st).sys = ipChangeEventCount st.sys := by
  induction hosts generalizing st with
  | nil => rfl
  | cons h t ih =>
    rw [reconcile_cons, ih]
    by_cases hm : (h.mac == "") = true
    · rw [reconcileStep_skip env ic st h hm]
    · have hm2 : (h.mac == "") = false := by simpa using hm
      cases hfind : st.sys.devices.find? (fun x => x.mac == h.mac) with
      | some e =>
        rw [ipChangeEventCount, (reconcileStep_matched env ic st h e hm2 hfind).2.2.1]
        rfl
      | none =>
        rw [ipChangeEventCount, (reconcileStep_created env ic st h hm2 hfind).2.2.1]
        simp [ipChangeEventCount]

lemma reconcile_emitted_mono (env : CycleEnv) (ic : Nat) (hosts : List Enriched) (st : RecSt) :
    ∃ l, (reconcile env ic hosts st).sys.emitted = st.sys.emitted ++ l := by
  induction hosts generalizing st with
  | nil => exact ⟨[], by simp [reconcile]⟩
  | cons h t ih =>
    rw [reconcile_cons]
    obtain ⟨l2, hl2⟩ := ih (reconcileStep env ic st h)
    by_cases hm : (h.mac == "") = true
    · rw [reconcileStep_skip env ic st h hm]
      exact ih st
    · have hm2 : (h.mac == "") = false := by simpa using hm
      cases hfind : st.sys.devices.find? (fun x => x.mac == h.mac) with
      | some e =>
        have hc := (reconcileStep_matched env ic st h e hm2 hfind).2.2.2.2.2.2.2
        exact ⟨_, by rw [hl2, hc, List.append_assoc, List.append_assoc]⟩
      | none =>
        have hc := (reconcileStep_created env ic st h hm2 hfind).2.2.2.2.2.2.2
        exact ⟨_, by rw [hl2, hc, List.append_assoc]⟩

lemma map_update_id (l : List Device) (m : String) (h : Enriched) :
    (l.map (fun d => if d.mac == m then applyUpdate d h else d)).map Device.id
      = l.map Device.id := by
  simp only [List.map_map]
  refine List.map_congr_left fun a _ => ?_
  by_cases h2 : a.mac = m <;> simp [h2]

lemma map_update_mac (l : List Device) (m : String) (h : Enriched) :
    (l.map (fun d => if d.mac == m then applyUpdate d h else d)).map Device.mac
      = l.map Device.mac := by
  simp only [List.map_map]
  refine List.map_congr_left fun a _ => ?_
  by_cases h2 : a.mac = m <;> simp [h2]

lemma step_inv_matched (env : CycleEnv) (ic : Nat) (st : RecSt) (h : Enriched) (e : Device)
    (hm : (h.mac == "") = false)
    (hf : st.sys.devices.find? (fun d => d.mac == h.mac) = some e)
    (hInv : Inv st.sys) : Inv (reconcileStep env ic st h).sys := by
  have hc := reconcileStep_matched env ic st h e hm hf
  refine ⟨?_, ?_, ?_⟩
  · rw [hc.1, map_update_id]
    exact hInv.1
  · rw [hc.1, map_update_mac]
    exact hInv.2.1
  · rw [hc.1, hc.2.2.2.1]
    intro d hd
    obtain ⟨y, hy, hey⟩ := List.mem_map.mp hd
    have : d.id = y.id := by
      by_cases h2 : (y.mac == h.mac) = true <;> simp [h2] at hey <;> rw [← hey] <;> simp
    rw [this]
    exact hInv.2.2 y hy

lemma step_inv_created (env : CycleEnv) (ic : Nat) (st : RecSt) (h : Enriched)
    (hm : (h.mac == "") = false)
    (hf : st.sys.devices.find? (fun d => d.mac == h.mac) = none)
    (hInv : Inv st.sys) : Inv (reconcileStep env ic st h).sys := by
  have hc := reconcileStep_created env ic st h hm hf
  have hfr := List.find?_eq_none.mp hf
  refine ⟨?_, ?_, ?_⟩
  · rw [hc.1]
    simp only [List.map_append, List.map_cons, List.map_nil, freshDevice_id]
    rw [List.nodup_append]
    refine ⟨hInv.1, List.nodup_singleton _, ?_⟩
    intro a ha hb
    simp at hb
    obtain ⟨y, hy, hey⟩ := List.mem_map.mp ha
    rw [hb] at hey
    exact absurd (hey ▸ hInv.2.2 y hy) (lt_irrefl _)
  · rw [hc.1]
    simp only [List.map_append, List.map_cons, List.map_nil, freshDevice_mac]
    rw [List.nodup_append]
    refine ⟨hInv.2.1, List.nodup_singleton _, ?_⟩
    intro a ha hb
    simp at hb
    obtain ⟨y, hy, hey⟩ := List.mem_map.mp ha
    have := hfr y hy
    rw [hb] at hey
    simp [hey] at this
  · rw [hc.1, hc.2.2.2.1]
    intro d hd
    rcases List.mem_append.mp hd with hd2 | hd2
    · exact Nat.lt_succ_of_lt (hInv.2.2 d hd2)
    · simp at hd2
      rw [hd2]
      simp [Nat.lt_succ_self]

lemma reconcile_main (env : CycleEnv) (ic : Nat) (hosts : List Enriched) (st : RecSt)
    (hInv : Inv st.sys) :
    Inv (reconcile env ic hosts st).sys ∧
    st.sys.nextId ≤ (reconcile env ic hosts st).sys.nextId ∧
    (∀ x ∈ st.sys.devices, ∃ x2 ∈ (reconcile env ic hosts st).sys.devices,
        x2.id = x.id ∧ x2.mac = x.mac) ∧
    (∀ x2 ∈ (reconcile env ic hosts st).sys.devices, x2.id < st.sys.nextId →
        ∃ x ∈ st.sys.devices, x.id = x2.id ∧ x.mac = x2.mac) ∧
    (reconcile env ic hosts st).sys.settings = st.sys.settings := by
  induction hosts generalizing st with
  | nil =>
    exact ⟨hInv, le_refl _, fun x hx => ⟨x, hx, rfl, rfl⟩, fun x hx h2 => ⟨x, hx, rfl, rfl⟩, rfl⟩
  | cons h t ih =>
    rw [reconcile_cons]
    by_cases hm : (h.mac == "") = true
    · rw [reconcileStep_skip env ic st h hm]
      exact ih st hInv
    · have hm2 : (h.mac == "") = false := by simpa using hm
      cases hfind : st.sys.devices.find? (fun x => x.mac == h.mac) with
      | some e =>
        have hc := reconcileStep_matched env ic st h e hm2 hfind
        have hInv2 := step_inv_matched env ic st h e hm2 hfind hInv
        obtain ⟨i1, i2, i3, i4, i5⟩ := ih (reconcileStep env ic st h) hInv2
        refine ⟨i1, ?_, ?_, ?_, ?_⟩
        · rw [← hc.2.2.2.1]
          exact i2
        · intro x hx
          have hmem : (if (x.mac == h.mac) = true then applyUpdate x h else x)
              ∈ (reconcileStep env ic st h).sys.devices := by
            rw [hc.1]
            exact List.mem_map.mpr ⟨x, hx, rfl⟩
          obtain ⟨x2, hx2, he1, he2⟩ := i3 _ hmem
          refine ⟨x2, hx2, ?_, ?_⟩
          · rw [he1]
            by_cases h2 : (x.mac == h.mac) = true <;> simp [h2]
          · rw [he2]
            by_cases h2 : (x.mac == h.mac) = true <;> simp [h2]
        · intro x2 hx2 hlt
          rw [← hc.2.2.2.1] at hlt
          obtain ⟨x3, hx3, he1, he2⟩ := i4 x2 hx2 hlt
          rw [hc.1] at hx3
          obtain ⟨y, hy, hey⟩ := List.mem_map.mp hx3
          refine ⟨y, hy, ?_, ?_⟩
          · rw [← he1, ← hey]
            by_cases h2 : (y.mac == h.mac) = true <;> simp [h2]
          · rw [← he2, ← hey]
            by_cases h2 : (y.mac == h.mac) = true <;> simp [h2]
        · rw [i5, hc.2.2.2.2.1]
      | none =>
        have hc := reconcileStep_created env ic st h hm2 hfind
        have hInv2 := step_inv_created env ic st h hm2 hfind hInv
        obtain ⟨i1, i2, i3, i4, i5⟩ := ih (reconcileStep env ic st h) hInv2
        refine ⟨i1, ?_, ?_, ?_, ?_⟩
        · rw [hc.2.2.2.1] at i2
          omega
        · intro x hx
          refine i3 x ?_
          rw [hc.1]
          exact List.mem_append_left _ hx
        · intro x2 hx2 hlt
          have hlt2 : x2.id < (reconcileStep env ic st h).sys.nextId := by
            rw [hc.2.2.2.1]
            omega
          obtain ⟨x3, hx3, he1, he2⟩ := i4 x2 hx2 hlt2
          rw [hc.1] at hx3
          rcases List.mem_append.mp hx3 with hx4 | hx4
          · exact ⟨x3, hx4, he1, he2⟩
          · simp at hx4
            rw [hx4] at he1
            simp at he1
            omega
        · rw [i5, hc.2.2.2.2.1]

lemma reconcile_macs_present (env : CycleEnv) (ic : Nat) (hosts : List Enriched) (st : RecSt) :
    (∀ m, m ∈ st.sys.devices.map Device.mac →
        m ∈ (reconcile env ic hosts st).sys.devices.map Device.mac) ∧
    (∀ h2 ∈ hosts, ¬h2.mac = "" →
        h2.mac ∈ (reconcile env ic hosts st).sys.devices.map Device.mac) := by
  induction hosts generalizing st with
  | nil => exact ⟨fun m hm => hm, fun h2 hh => absurd hh (List.not_mem_nil h2)⟩
  | cons h t ih =>
    rw [reconcile_cons]
    by_cases hm : (h.mac == "") = true
    · rw [reconcileStep_skip env ic st h hm]
      obtain ⟨p1, p2⟩ := ih st
      refine ⟨p1, fun h2 hh hne => ?_⟩
      rcases List.mem_cons.mp hh with rfl | hh2
      · exact absurd (by simpa using hm) hne
      · exact p2 h2 hh2 hne
    · have hm2 : (h.mac == "") = false := by simpa using hm
      obtain ⟨p1, p2⟩ := ih (reconcileStep env ic st h)
      cases hfind : st.sys.devices.find? (fun x => x.mac == h.mac) with
      | some e =>
        have hc := reconcileStep_matched env ic st h e hm2 hfind
        have hpres : ∀ m, m ∈ st.sys.devices.map Device.mac →
            m ∈ (reconcileStep env ic st h).sys.devices.map Device.mac := by
          intro m hm3
          rw [hc.1, map_update_mac]
          exact hm3
        refine ⟨fun m hm3 => p1 m (hpres m hm3), fun h2 hh hne => ?_⟩
        rcases List.mem_cons.mp hh with rfl | hh2
        · have he1 : e ∈ st.sys.devices := List.mem_of_find?_eq_some hfind
          have he2 := List.find?_some hfind
          simp only [beq_iff_eq] at he2
          refine p1 h2.mac (hpres h2.mac ?_)
          rw [← he2]
          exact List.mem_map_of_mem Device.mac he1
        · exact p2 h2 hh2 hne
      | none =>
        have hc := reconcileStep_created env ic st h hm2 hfind
        have hpres : ∀ m, m ∈ st.sys.devices.map Device.mac →
            m ∈ (reconcileStep env ic st h).sys.devices.map Device.mac := by
          intro m hm3
          rw [hc.1]
          simp only [List.map_append]
          exact List.mem_append_left _ hm3
        refine ⟨fun m hm3 => p1 m (hpres m hm3), fun h2 hh hne => ?_⟩
        rcases List.mem_cons.mp hh with rfl | hh2
        · refine p1 h2.mac ?_
          rw [hc.1]
          simp
        · exact p2 h2 hh2 hne

lemma reconcile_allmatched (env : CycleEnv) (ic : Nat) (hosts : List Enriched) (st : RecSt)
    (hall : ∀ h2 ∈ hosts, ¬h2.mac = "" → h2.mac ∈ st.sys.devices.map Device.mac) :
    (reconcile env ic hosts st).sys.devices.length = st.sys.devices.length ∧
    (reconcile env ic hosts st).sys.events = st.sys.events ∧
    (reconcile env ic hosts st).sys.nextId = st.sys.nextId := by
  induction hosts generalizing st with
  | nil => exact ⟨rfl, rfl, rfl⟩
  | cons h t ih =>
    rw [reconcile_cons]
    by_cases hm : (h.mac == "") = true
    · rw [reconcileStep_skip env ic st h hm]
      exact ih st (fun h2 hh => hall h2 (List.mem_cons_of_mem _ hh))
    · have hm2 : (h.mac == "") = false := by simpa using hm
      have hmem : h.mac ∈ st.sys.devices.map Device.mac :=
        hall h (List.mem_cons_self h t) (by simpa using hm2)
      obtain ⟨y, hy, hey⟩ := List.mem_map.mp hmem
      have hsome : (st.sys.devices.find? (fun x => x.mac == h.mac)).isSome := by
        rw [List.find?_isSome]
        exact ⟨y, hy, by simp [hey]⟩
      obtain ⟨e, hfind⟩ := Option.isSome_iff_exists.mp hsome
      have hc := reconcileStep_matched env ic st h e hm2 hfind
      have hall2 : ∀ h2 ∈ t, ¬h2.mac = "" →
          h2.mac ∈ (reconcileStep env ic st h).sys.devices.map Device.mac := by
        intro h2 hh hne
        rw [hc.1, map_update_mac]
        exact hall h2 (List.mem_cons_of_mem _ hh) hne
      obtain ⟨a1, a2, a3⟩ := ih (reconcileStep env ic st h) hall2
      refine ⟨?_, ?_, ?_⟩
      · rw [a1, hc.1, List.length_map]
      · rw [a2, hc.2.2.1]
      · rw [a3, hc.2.2.2.1]

lemma macsOf_cons (h : Enriched) (t : List Enriched) :
    macsOf (h :: t) = if h.mac = "" then macsOf t else h.mac :: macsOf t := by
  by_cases h2 : h.mac = "" <;> simp [macsOf, List.filter_cons, h2]

lemma histCount_matched (env : CycleEnv) (ic : Nat) (st : RecSt) (h : Enriched) (e : Device)
    (hm : (h.mac == "") = false)
    (hf : st.sys.devices.find? (fun d => d.mac == h.mac) = some e) (i : Nat) :
    histCount i (reconcileStep env ic st h).sys
      = histCount i st.sys + (if e.id = i then 1 else 0) := by
  rw [histCount, (reconcileStep_matched env ic st h e hm hf).2.1, List.countP_append]
  simp [histCount, List.countP_cons]

lemma histCount_created (env : CycleEnv) (ic : Nat) (st : RecSt) (h : Enriched)
    (hm : (h.mac == "") = false)
    (hf : st.sys.devices.find? (fun d => d.mac == h.mac) = none) (i : Nat) :
    histCount i (reconcileStep env ic st h).sys
      = histCount i st.sys + (if st.sys.nextId = i then 1 else 0) := by
  rw [histCount, (reconcileStep_created env ic st h hm hf).2.1, List.countP_append]
  simp [histCount, List.countP_cons]

lemma reconcile_rowcount (env : CycleEnv) (ic : Nat) (hosts : List Enriched) (st : RecSt)
    (hInv : Inv st.sys) (hnd : (macsOf hosts).Nodup) :
    ∀ d ∈ (reconcile env ic hosts st).sys.devices,
      histCount d.id (reconcile env ic hosts st).sys
        = histCount d.id st.sys + (if d.mac ∈ macsOf hosts then 1 else 0) := by
  induction hosts generalizing st with
  | nil =>
    intro d hd
    simp [reconcile, macsOf]
  | cons h t ih =>
    intro d hd
    rw [reconcile_cons] at hd ⊢
    by_cases hm : (h.mac == "") = true
    · rw [reconcileStep_skip env ic st h hm] at hd ⊢
      rw [macsOf_cons] at hnd ⊢
      have hme : h.mac = "" := by simpa using hm
      rw [if_pos hme] at hnd ⊢
      exact ih st hInv hnd d hd
    · have hm2 : (h.mac == "") = false := by simpa using hm
      have hme : ¬h.mac = "" := by simpa using hm
      rw [macsOf_cons, if_neg hme] at hnd ⊢
      have hnotin : ¬h.mac ∈ macsOf t := (List.nodup_cons.mp hnd).1
      have hndt : (macsOf t).Nodup := (List.nodup_cons.mp hnd).2
      cases hfind : st.sys.devices.find? (fun x => x.mac == h.mac) with
      | some e =>
        have hc := reconcileStep_matched env ic st h e hm2 hfind
        have hemac : e.mac = h.mac := by
          have := List.find?_some hfind
          simpa using this
        have hemem : e ∈ st.sys.devices := List.mem_of_find?_eq_some hfind
        have hInv2 := step_inv_matched env ic st h e hm2 hfind hInv
        obtain ⟨i1, i2, i3, i4, i5⟩ := reconcile_main env ic t (reconcileStep env ic st h) hInv2
        have hup : applyUpdate e h ∈ (reconcileStep env ic st h).sys.devices := by
          rw [hc.1]
          exact List.mem_map.mpr ⟨e, hemem, by simp [hemac]⟩
        by_cases hdm : d.mac = h.mac
        · have hdid : d.id = e.id := by
            obtain ⟨x2, hx2, he1, he2⟩ := i3 _ hup
            have hdx : d = x2 := by
              refine nodup_map_inj Device.mac i1.2.1 d hd x2 hx2 ?_
              rw [he2]
              simp [hdm, hemac]
            rw [hdx, he1]
            simp
          rw [ih (reconcileStep env ic st h) hInv2 hndt d hd,
            histCount_matched env ic st h e hm2 hfind]
          simp [hnotin, hdid, hdm]
        · have hdid : ¬d.id = e.id := by
            intro heq
            obtain ⟨x2, hx2, he1, he2⟩ := i3 _ hup
            have hlt : d.id < (reconcileStep env ic st h).sys.nextId := by
              rw [hc.2.2.2.1, heq]
              exact hInv.2.2 e hemem
            obtain ⟨x3, hx3, he3, he4⟩ := i4 d hd hlt
            have : x3 = applyUpdate e h := by
              refine nodup_map_inj Device.id hInv2.1 x3 hx3 _ hup ?_
              rw [he3, heq]
              simp
            rw [this] at he4
            simp [hemac] at he4
            exact hdm he4.symm
          rw [ih (reconcileStep env ic st h) hInv2 hndt d hd,
            histCount_matched env ic st h e hm2 hfind]
          have : d.mac ∈ h.mac :: macsOf t ↔ d.mac ∈ macsOf t := by
            simp [List.mem_cons, hdm]
          rw [if_neg (fun a => hdid a.symm)]
          by_cases hmem : d.mac ∈ macsOf t <;> simp [hmem, this]
      | none =>
        have hc := reconcileStep_created env ic st h hm2 hfind
        have hInv2 := step_inv_created env ic st h hm2 hfind hInv
        obtain ⟨i1, i2, i3, i4, i5⟩ := reconcile_main env ic t (reconcileStep env ic st h) hInv2
        have hup : freshDevice st.sys.nextId h ∈ (reconcileStep env ic st h).sys.devices := by
          rw [hc.1]
          simp
        by_cases hdm : d.mac = h.mac
        · have hdid : d.id = st.sys.nextId := by
            obtain ⟨x2, hx2, he1, he2⟩ := i3 _ hup
            have hdx : d = x2 := by
              refine nodup_map_inj Device.mac i1.2.1 d hd x2 hx2 ?_
              rw [he2]
              simp [hdm]
            rw [hdx, he1]
            simp
          rw [ih (reconcileStep env ic st h) hInv2 hndt d hd,
            histCount_created env ic st h hm2 hfind]
          simp [hnotin, hdid, hdm]
        · have hdid : ¬d.id = st.sys.nextId := by
            intro heq
            obtain ⟨x2, hx2, he1, he2⟩ := i3 _ hup
            have hlt : d.id < (reconcileStep env ic st h).sys.nextId := by
              rw [hc.2.2.2.1, heq]
              exact Nat.lt_succ_self _
            obtain ⟨x3, hx3, he3, he4⟩ := i4 d hd hlt
            have : x3 = freshDevice st.sys.nextId h := by
              refine nodup_map_inj Device.id hInv2.1 x3 hx3 _ hup ?_
              rw [he3, heq]
              simp
            rw [this] at he4
            simp at he4
            exact hdm he4.symm
          rw [ih (reconcileStep env ic st h) hInv2 hndt d hd,
            histCount_created env ic st h hm2 hfind]
          have : d.mac ∈ h.mac :: macsOf t ↔ d.mac ∈ macsOf t := by
            simp [List.mem_cons, hdm]
          rw [if_neg (fun a => hdid a.symm)]
          by_cases hmem : d.mac ∈ macsOf t <;> simp [hmem, this]

/-- Device for the offline-transition witness. -/
def devC4 : Device :=
  { id := 0, mac := "aa:bb:cc:dd:ee:04", ip := "10.0.0.4", name := "cam",
    vendor := "", type := "unknown", status := "online", os := "", details := "", tags := [] }

/-- Registry holding only the offline-transition device. -/
def sC4 : SysState := { emptyState with devices := [devC4], nextId := 1 }

/-- Cycle environment whose sweep misses the device. -/
def envC4 : CycleEnv :=
  { ts := "T", durSecs := "1", sweep := Except.ok [], ifaces := [],
    selfHostname := "host", selfOsInfo := "", rs := emptyRs }

/-- C6 counterexample: with a non-empty swept hostname the source skips
reverse DNS entirely, so the merged name is the hostname, while the
claimed priority order yields the reverse-DNS result. -/
theorem name_merge_counterexample :
    computeFinalName envC6 hostC6 = "printer" ∧
    specMergeName envC6 hostC6 = "dns-name" ∧
    computeFinalName envC6 hostC6 ≠ specMergeName envC6 hostC6 := by
  decide

/-- C6 (amended): a non-identity mDNS result always wins; with no mDNS
entry a non-identity SSDP result wins; with neither, a non-identity swept
hostname preempts reverse DNS and NetBIOS; reverse DNS is consulted only
when the name so far is empty or the IP itself, and NetBIOS only after
reverse DNS also failed, in which case a non-empty NetBIOS result wins. -/
theorem name_merge_priority (env : ResolverEnv) (h : RawHost) :
    (∀ v, env.mdnsMap.lookup h.ip = some v → isIdentityName h.ip v = false →
        computeFinalName env h = v) ∧
    (env.mdnsMap.lookup h.ip = none → ∀ v, env.ssdpMap.lookup h.ip = some v →
        isIdentityName h.ip v = false → computeFinalName env h = v) ∧
    (env.mdnsMap.lookup h.ip = none → env.ssdpMap.lookup h.ip = none →
        isIdentityName h.ip h.hostname = false → computeFinalName env h = h.hostname) ∧
    (env.mdnsMap.lookup h.ip = none → env.ssdpMap.lookup h.ip = none →
        (h.hostname = "" ∨ h.hostname = h.ip) → ∀ v vs, env.dnsReverse h.ip = v :: vs →
        isIdentityName h.ip v = false → computeFinalName env h = v) ∧
    (env.mdnsMap.lookup h.ip = none → env.ssdpMap.lookup h.ip = none →
        (h.hostname = "" ∨ h.hostname = h.ip) → env.dnsReverse h.ip = [] →
        ∀ v, env.netbios h.ip = some v → v ≠ "" → computeFinalName env h = v) ∧
    (∀ v, env.mdnsMap.lookup h.ip = some v →
        computeFinalName env h = computeFinalName { env with ssdpMap := [] } h) ∧
    (∀ v, env.mdnsMap.lookup h.ip = some v → (v = "" ∨ v = h.ip) →
        ∀ w ws, env.dnsReverse h.ip = w :: ws → isIdentityName h.ip w = false →
        computeFinalName env h = w) ∧
    (∀ v, env.mdnsMap.lookup h.ip = some v → ¬v = "" → ¬v = h.ip →
        strStartsWith v "ip-" = true → ∀ w, env.netbios h.ip = some w → ¬w = "" →
        computeFinalName env h = w) ∧
    (¬h.mac = "" → computeFinalName env h = "" →
        ∀ nid, (freshDevice nid (enrichHost env h)).name = "New Device") := by
  simp only [isIdentityName, Bool.or_eq_false_iff, beq_eq_false_iff_ne, ne_eq]
  refine ⟨?_, ?_, ?_, ?_, ?_, ?_, ?_, ?_, ?_⟩
  · intro v hm hid
    simp [computeFinalName, hm, hid.1.1, hid.1.2, hid.2]
  · intro hm v hs hid
    simp [computeFinalName, hm, hs, hid.1.1, hid.1.2, hid.2]
  · intro hm hs hid
    simp [computeFinalName, hm, hs, hid.1.1, hid.1.2, hid.2]
  · intro hm hs hh v vs hd hid
    rcases hh with hh | hh <;>
      simp [computeFinalName, hm, hs, hh, hd, hid.1.1, hid.1.2, hid.2]
  · intro hm hs hh hd v hn hv
    rcases hh with hh | hh <;>
      simp [computeFinalName, hm, hs, hh, hd, hn, hv]
  · intro v hm
    simp [computeFinalName, hm]
  · intro v hm hvi w ws hd hid
    rcases hvi with hv | hv <;> subst hv <;>
      simp [computeFinalName, hm, hd, hid.1.1, hid.1.2, hid.2]
  · intro v hm hne hnip hpre w hw hwne
    simp [computeFinalName, hm, hne, hnip, hpre, hw, hwne]
  · intro hmac hempty nid
    simp [freshDevice, enrichHost, hmac, hempty]

/-- C6 witness: the merge characterization applied at two concrete
environments: the hostname preempting reverse DNS, and an identity mDNS
result falling through to reverse DNS past a resolving SSDP entry. -/
theorem name_merge_priority_witness :
    computeFinalName envC6 hostC6 = "printer" ∧
    computeFinalName envC6b hostC6 = "dns-name" :=
  ⟨(name_merge_priority envC6 hostC6).2.2.1 rfl rfl (by decide),
   (name_merge_priority envC6b hostC6).2.2.2.2.2.2.1 "10.0.0.7" rfl (Or.inr rfl)
     "dns-name" [] (by decide) (by decide)⟩

/-- If-then-else distributes over a boolean disjunction in the condition. -/
lemma bool_ite_or {α : Sort u} (a b : Bool) (x y : α) :
    (if a || b then x else y) = (if a then x else if b then x else y) := by
  cases a <;> cases b <;> simp

/-- C9 counterexample: the claim fixes the category order with all
smart-home tokens before the networking-gear tokens, but the source checks
raspberry and arduino only after the router tokens, so a vendor string
containing both kinds of token is classified router where the claimed
order yields iot. -/
theorem classifier_order_counterexample :
    guessType "raspberry cisco" "" = "router" ∧
    specGuessType "raspberry cisco" "" = "iot" ∧
    guessType "raspberry cisco" "" ≠ specGuessType "raspberry cisco" "" := by
  decide

/-- C9 (amended): the classifier is pure and case-insensitive, and equals
the first-match rule chain over the token lists in the source order, where
the smart-home tokens philips, hue and nest are checked before the
networking-gear tokens and raspberry and arduino after them; the remaining
categories follow the claimed order ending in windows to laptop, linux to
server, and otherwise unknown. -/
theorem classifier_characterization (v o v2 o2 : String)
    (hv : strToLower v = strToLower v2) (ho : strToLower o = strToLower o2) :
    guessType v o = guessType v2 o2 ∧ guessType v o = amendedGuessType v o := by
  constructor
  · simp only [guessType]
    rw [hv, ho]
  · simp only [guessType, amendedGuessType, vmTokens, phoneTokens, laptopTokens,
      smartHomeTokens, routerTokens, sbcTokens, nasTokens, List.any_cons, List.any_nil,
      Bool.or_false, bool_ite_or]

/-- C9 witness: the characterization applied at concrete inputs, with the
hypotheses discharged by evaluation. -/
theorem classifier_characterization_witness :
    strToLower "Apple" = strToLower "aPPLE" ∧
    guessType "Apple" "" = guessType "aPPLE" "" ∧
    guessType "Apple" "" = amendedGuessType "Apple" "" :=
  ⟨by decide,
   (classifier_characterization "Apple" "" "aPPLE" "" (by decide) (by decide)).1,
   (classifier_characterization "Apple" "" "aPPLE" "" (by decide) (by decide)).2⟩

/-- C1 counterexample: a MAC re-seen at a new IP updates the stored IP and
creates no duplicate row, but the event log gains no entry at all, so no
ip_change DomainEvent is recorded; only a notification is emitted. -/
theorem ip_change_event_counterexample :
    ((runScan envC1 sC1).devices.map (fun d => (d.mac, d.ip))) = [("aa:bb:cc:dd:ee:01", "10.0.0.9")] ∧
    (runScan envC1 sC1).events = [] ∧
    ((runScan envC1 sC1).emitted.map Notification.title) = ["IP Address Changed"] := by
  decide

/-- C2 counterexample: the stored vendor is Apple and non-empty, yet after
reconciliation with a sweep reporting Dell the stored vendor is Dell: the
sweep value wins whenever it is non-empty. -/
theorem vendor_preserved_counterexample :
    ((runScan envC2 sC2).devices.map Device.vendor) = ["Dell"] ∧ devC2.vendor = "Apple" := by
  decide

/-- C3, evaluated at the failing input: the sweep misses the host, a self
entry is synthesized and its device row created online, yet because the
observed-MAC list is computed before synthesis the same cycle appends an
offline history row for it, flips it offline, and emits an offline event. -/
theorem self_host_offline_bug :
    ((runScan envC3 emptyState).devices.map (fun d => (d.mac, d.status))) = [("aa:bb", "offline")] ∧
    (runScan envC3 emptyState).history =
      [{ deviceId := 0, status := "online", latency := none },
       { deviceId := 0, status := "offline", latency := none }] ∧
    ((runScan envC3 emptyState).events.map DomainEvent.etype) = ["new_device", "offline"] := by
  decide

/-- C5 counterexample: with two sweep entries sharing a MAC the device
gets two history rows in one cycle, and the synthesized self device gets
an online and an offline row in the same cycle, so the cycle does not
append exactly one history row per registry device. -/
theorem idempotent_resighting_counterexample :
    ((runScan envC5 emptyState).devices.map Device.id) = [0, 1] ∧
    histCount 0 (runScan envC5 emptyState) = 2 ∧
    histCount 1 (runScan envC5 emptyState) = 2 := by
  decide

/-- C7 counterexample: the registry is empty at cycle start and a device
is created, yet with the global new-device notification option off the
cycle emits no notification at all, in particular no summary. -/
theorem first_scan_summary_counterexample :
    (runScan envC7 sC7).emitted = [] ∧ (runScan envC7 sC7).devices.length = 1 := by
  decide

/-- C8 counterexample: two rows share the fingerprinted IP; the task
triggered for the second row (ip 10.0.0.5, empty os snapshot) writes the
first row and leaves the trigger target untouched, because completion
looks the device up by IP with findFirst. -/
theorem fingerprint_frame_counterexample :
    ((scanDeviceDetails "10.0.0.5" "" [resC8] sC8).devices.map (fun d => (d.id, d.os))) =
      [(1, "Linux 5.4"), (2, "")] ∧ devC8b.ip = "10.0.0.5" ∧ devC8b.os = "" := by
  decide

/-- C10: triggering runScan while the scanning flag is set returns the
state unchanged, with no effect on the registry, the event log, the
history, the notification store or the scan state; consequently a trigger
interleaved before the completion handler leaves the cycle outcome equal
to that of the single call. -/
theorem scan_mutual_exclusion (env env2 : CycleEnv) (data : List RawHost) (s : SysState)
    (hrun : s.isScanning = true) :
    runScan env2 s = s ∧ scanComplete env data (runScan env2 s) = scanComplete env data s := by
  have h1 : runScan env2 s = s := by simp [runScan, hrun]
  exact ⟨h1, by rw [h1]⟩

/-- C10 witness: the gate applied to a concrete busy state. -/
theorem scan_mutual_exclusion_witness : runScan envC10 sBusy = sBusy :=
  (scan_mutual_exclusion envC10 envC10 [] sBusy rfl).1


@[simp] lemma slogAll_devices (s : SysState) (ts : String) (msgs : List String) :
    (slogAll s ts msgs).devices = s.devices := by
  induction msgs generalizing s with
  | nil => rfl
  | cons m t ih => simp only [slogAll, List.foldl_cons] at ih ⊢; rw [ih]; rfl

@[simp] lemma slogAll_history (s : SysState) (ts : String) (msgs : List String) :
    (slogAll s ts msgs).history = s.history := by
  induction msgs generalizing s with
  | nil => rfl
  | cons m t ih => simp only [slogAll, List.foldl_cons] at ih ⊢; rw [ih]; rfl

@[simp] lemma slogAll_events (s : SysState) (ts : String) (msgs : List String) :
    (slogAll s ts msgs).events = s.events := by
  induction msgs generalizing s with
  | nil => rfl
  | cons m t ih => simp only [slogAll, List.foldl_cons] at ih ⊢; rw [ih]; rfl

@[simp] lemma slogAll_nextId (s : SysState) (ts : String) (msgs : List String) :
    (slogAll s ts msgs).nextId = s.nextId := by
  induction msgs generalizing s with
  | nil => rfl
  | cons m t ih => simp only [slogAll, List.foldl_cons] at ih ⊢; rw [ih]; rfl

@[simp] lemma slogAll_settings (s : SysState) (ts : String) (msgs : List String) :
    (slogAll s ts msgs).settings = s.settings := by
  induction msgs generalizing s with
  | nil => rfl
  | cons m t ih => simp only [slogAll, List.foldl_cons] at ih ⊢; rw [ih]; rfl

@[simp] lemma slogAll_emitted (s : SysState) (ts : String) (msgs : List String) :
    (slogAll s ts msgs).emitted = s.emitted := by
  induction msgs generalizing s with
  | nil => rfl
  | cons m t ih => simp only [slogAll, List.foldl_cons] at ih ⊢; rw [ih]; rfl

@[simp] lemma slogAll_notifs (s : SysState) (ts : String) (msgs : List String) :
    (slogAll s ts msgs).notifs = s.notifs := by
  induction msgs generalizing s with
  | nil => rfl
  | cons m t ih => simp only [slogAll, List.foldl_cons] at ih ⊢; rw [ih]; rfl

@[simp] lemma slogAll_ports (s : SysState) (ts : String) (msgs : List String) :
    (slogAll s ts msgs).ports = s.ports := by
  induction msgs generalizing s with
  | nil => rfl
  | cons m t ih => simp only [slogAll, List.foldl_cons] at ih ⊢; rw [ih]; rfl

@[simp] lemma slogAll_isScanning (s : SysState) (ts : String) (msgs : List String) :
    (slogAll s ts msgs).isScanning = s.isScanning := by
  induction msgs generalizing s with
  | nil => rfl
  | cons m t ih => simp only [slogAll, List.foldl_cons] at ih ⊢; rw [ih]; rfl

lemma cyclePreamble_fields (env : CycleEnv) (s : SysState) :
    (cyclePreamble env s).devices = s.devices ∧
    (cyclePreamble env s).history = s.history ∧
    (cyclePreamble env s).events = s.events ∧
    (cyclePreamble env s).nextId = s.nextId ∧
    (cyclePreamble env s).settings = s.settings ∧
    (cyclePreamble env s).emitted = [] ∧
    (cyclePreamble env s).notifs = s.notifs ∧
    (cyclePreamble env s).ports = s.ports ∧
    (cyclePreamble env s).isScanning = true := by
  simp only [cyclePreamble]
  split
  · rename_i x2 st2 heq2
    by_cases hd : st2.dnsServer = "" <;> simp_all
  · simp_all

lemma completionLogState_fields (env : CycleEnv) (data0 : List RawHost) (s : SysState) :
    (completionLogState env data0 s).devices = s.devices ∧
    (completionLogState env data0 s).history = s.history ∧
    (completionLogState env data0 s).events = s.events ∧
    (completionLogState env data0 s).nextId = s.nextId ∧
    (completionLogState env data0 s).settings = s.settings ∧
    (completionLogState env data0 s).emitted = s.emitted ∧
    (completionLogState env data0 s).ports = s.ports := by
  simp [completionLogState, slog]

@[simp] lemma cyclePreamble_devices (env : CycleEnv) (s : SysState) :
    (cyclePreamble env s).devices = s.devices := (cyclePreamble_fields env s).1
@[simp] lemma cyclePreamble_history (env : CycleEnv) (s : SysState) :
    (cyclePreamble env s).history = s.history := (cyclePreamble_fields env s).2.1
@[simp] lemma cyclePreamble_events (env : CycleEnv) (s : SysState) :
    (cyclePreamble env s).events = s.events := (cyclePreamble_fields env s).2.2.1
@[simp] lemma cyclePreamble_nextId (env : CycleEnv) (s : SysState) :
    (cyclePreamble env s).nextId = s.nextId := (cyclePreamble_fields env s).2.2.2.1
@[simp] lemma cyclePreamble_settings (env : CycleEnv) (s : SysState) :
    (cyclePreamble env s).settings = s.settings := (cyclePreamble_fields env s).2.2.2.2.1
@[simp] lemma cyclePreamble_emitted (env : CycleEnv) (s : SysState) :
    (cyclePreamble env s).emitted = [] := (cyclePreamble_fields env s).2.2.2.2.2.1
@[simp] lemma cyclePreamble_notifs (env : CycleEnv) (s : SysState) :
    (cyclePreamble env s).notifs = s.notifs := (cyclePreamble_fields env s).2.2.2.2.2.2.1
@[simp] lemma cyclePreamble_ports (env : CycleEnv) (s : SysState) :
    (cyclePreamble env s).ports = s.ports := (cyclePreamble_fields env s).2.2.2.2.2.2.2.1
@[simp] lemma cyclePreamble_isScanning (env : CycleEnv) (s : SysState) :
    (cyclePreamble env s).isScanning = true := (cyclePreamble_fields env s).2.2.2.2.2.2.2.2

@[simp] lemma completionLogState_devices (env : CycleEnv) (data0 : List RawHost) (s : SysState) :
    (completionLogState env data0 s).devices = s.devices := (completionLogState_fields env data0 s).1
@[simp] lemma completionLogState_history (env : CycleEnv) (data0 : List RawHost) (s : SysState) :
    (completionLogState env data0 s).history = s.history := (completionLogState_fields env data0 s).2.1
@[simp] lemma completionLogState_events (env : CycleEnv) (data0 : List RawHost) (s : SysState) :
    (completionLogState env data0 s).events = s.events := (completionLogState_fields env data0 s).2.2.1
@[simp] lemma completionLogState_nextId (env : CycleEnv) (data0 : List RawHost) (s : SysState) :
    (completionLogState env data0 s).nextId = s.nextId := (completionLogState_fields env data0 s).2.2.2.1
@[simp] lemma completionLogState_settings (env : CycleEnv) (data0 : List RawHost) (s : SysState) :
    (completionLogState env data0 s).settings = s.settings := (completionLogState_fields env data0 s).2.2.2.2.1
@[simp] lemma completionLogState_emitted (env : CycleEnv) (data0 : List RawHost) (s : SysState) :
    (completionLogState env data0 s).emitted = s.emitted := (completionLogState_fields env data0 s).2.2.2.2.2.1
@[simp] lemma completionLogState_ports (env : CycleEnv) (data0 : List RawHost) (s : SysState) :
    (completionLogState env data0 s).ports = s.ports := (completionLogState_fields env data0 s).2.2.2.2.2.2

@[simp] lemma iteSlog_devices (c : Prop) [Decidable c] (a : SysState) (ts m : String) :
    (if c then slog a ts m else a).devices = a.devices := by split <;> rfl
@[simp] lemma iteSlog_history (c : Prop) [Decidable c] (a : SysState) (ts m : String) :
    (if c then slog a ts m else a).history = a.history := by split <;> rfl
@[simp] lemma iteSlog_events (c : Prop) [Decidable c] (a : SysState) (ts m : String) :
    (if c then slog a ts m else a).events = a.events := by split <;> rfl
@[simp] lemma iteSlog_nextId (c : Prop) [Decidable c] (a : SysState) (ts m : String) :
    (if c then slog a ts m else a).nextId = a.nextId := by split <;> rfl
@[simp] lemma iteSlog_settings (c : Prop) [Decidable c] (a : SysState) (ts m : String) :
    (if c then slog a ts m else a).settings = a.settings := by split <;> rfl
@[simp] lemma iteSlog_emitted (c : Prop) [Decidable c] (a : SysState) (ts m : String) :
    (if c then slog a ts m else a).emitted = a.emitted := by split <;> rfl
@[simp] lemma iteSlog_ports (c : Prop) [Decidable c] (a : SysState) (ts m : String) :
    (if c then slog a ts m else a).ports = a.ports := by split <;> rfl

@[simp] lemma iteAdd_devices (c : Prop) [Decidable c] (a : SysState) (n : Notification) :
    (if c then addNotif a n else a).devices = a.devices := by split <;> rfl
@[simp] lemma iteAdd_history (c : Prop) [Decidable c] (a : SysState) (n : Notification) :
    (if c then addNotif a n else a).history = a.history := by split <;> rfl
@[simp] lemma iteAdd_events (c : Prop) [Decidable c] (a : SysState) (n : Notification) :
    (if c then addNotif a n else a).events = a.events := by split <;> rfl
@[simp] lemma iteAdd_nextId (c : Prop) [Decidable c] (a : SysState) (n : Notification) :
    (if c then addNotif a n else a).nextId = a.nextId := by split <;> rfl
@[simp] lemma iteAdd_settings (c : Prop) [Decidable c] (a : SysState) (n : Notification) :
    (if c then addNotif a n else a).settings = a.settings := by split <;> rfl
@[simp] lemma iteAdd_ports (c : Prop) [Decidable c] (a : SysState) (n : Notification) :
    (if c then addNotif a n else a).ports = a.ports := by split <;> rfl
lemma iteAdd_emitted (c : Prop) [Decidable c] (a : SysState) (n : Notification) :
    (if c then addNotif a n else a).emitted = a.emitted ++ (if c then [n] else []) := by
  split <;> simp

@[simp] lemma enrichHost_mac (rs : ResolverEnv) (h : RawHost) :
    (enrichHost rs h).mac = h.mac := by
  by_cases h2 : (h.mac == "") = true <;> simp [enrichHost, h2]

@[simp] lemma enrichHost_ip (rs : ResolverEnv) (h : RawHost) :
    (enrichHost rs h).ip = h.ip := by
  by_cases h2 : (h.mac == "") = true <;> simp [enrichHost, h2]

@[simp] lemma enrichHost_vendor (rs : ResolverEnv) (h : RawHost) :
    (enrichHost rs h).vendor = h.vendor := by
  by_cases h2 : (h.mac == "") = true <;> simp [enrichHost, h2]

lemma includeSelfAux_extends (hn : String) (ifs : List Iface) (data : List RawHost) :
    ∃ extra, (includeSelfAux hn ifs data).1 = data ++ extra := by
  induction ifs generalizing data with
  | nil => exact ⟨[], by simp [includeSelfAux]⟩
  | cons i rest ih =>
    simp only [includeSelfAux]
    split_ifs with h1 h2
    · exact ih data
    · obtain ⟨e2, he2⟩ := ih (data ++
        [{ ip := i.address, mac := i.mac, hostname := hn, vendor := "Self (Lantern Host)" }])
      exact ⟨_, by rw [he2, List.append_assoc]⟩
    · exact ih data

lemma runScan_ok_eq (env : CycleEnv) (data : List RawHost) (s : SysState)
    (hidle : s.isScanning = false) (hok : env.sweep = Except.ok data) :
    runScan env s = scanComplete env data (cyclePreamble env s) := by
  simp [runScan, hidle, hok]

lemma reconcile_append (env : CycleEnv) (ic : Nat) (l1 l2 : List Enriched) (st : RecSt) :
    reconcile env ic (l1 ++ l2) st = reconcile env ic l2 (reconcile env ic l1 st) := by
  induction l1 generalizing st with
  | nil => rfl
  | cons h t ih => simp only [List.cons_append, reconcile_cons, ih]

lemma macsOf_append (l1 l2 : List Enriched) :
    macsOf (l1 ++ l2) = macsOf l1 ++ macsOf l2 := by
  simp [macsOf]

@[simp] lemma offHistCount_slog (i : Nat) (s : SysState) (ts m : String) :
    offHistCount i (slog s ts m) = offHistCount i s := rfl
@[simp] lemma offEventCount_slog (i : Nat) (s : SysState) (ts m : String) :
    offEventCount i (slog s ts m) = offEventCount i s := rfl
@[simp] lemma histCount_slog (i : Nat) (s : SysState) (ts m : String) :
    histCount i (slog s ts m) = histCount i s := rfl
@[simp] lemma newDeviceEventCount_slog (s : SysState) (ts m : String) :
    newDeviceEventCount (slog s ts m) = newDeviceEventCount s := rfl
@[simp] lemma ipChangeEventCount_slog (s : SysState) (ts m : String) :
    ipChangeEventCount (slog s ts m) = ipChangeEventCount s := rfl

lemma offlinePass_offHist (env : CycleEnv) (L : List Device) (s : SysState) (i : Nat) :
    offHistCount i (offlinePass env L s) = offHistCount i s + L.countP (fun x => x.id == i) := by
  rw [offHistCount, offlinePass_history, List.countP_append]
  simp only [offHistCount, List.countP_map]
  have he : ((fun r : HistoryRow => r.deviceId == i && r.status == "offline") ∘ fun d : Device =>
      ({ deviceId := d.id, status := "offline", latency := none } : HistoryRow))
      = (fun x : Device => x.id == i) := by
    funext a
    simp [Function.comp]
  rw [he]

lemma offlinePass_offEvent (env : CycleEnv) (L : List Device) (s : SysState) (i : Nat) :
    offEventCount i (offlinePass env L s)
      = offEventCount i s + L.countP (fun x => x.id == i && x.status == "online") := by
  rw [offEventCount, offlinePass_events, List.countP_append]
  simp only [offEventCount, List.countP_map]
  have he : ((fun e : DomainEvent => e.deviceId == i && e.etype == "offline") ∘ fun d : Device =>
      ({ etype := "offline",
         message := "Device " ++ (if d.name ≠ "" then d.name else d.ip) ++ " went offline",
         deviceId := d.id } : DomainEvent)) = (fun x : Device => x.id == i) := by
    funext a
    simp [Function.comp]
  rw [he, List.countP_filter]

lemma scanComplete_unfold (env : CycleEnv) (data0 : List RawHost) (sIn : SysState) :
    scanComplete env data0 sIn =
      (let rst := reconcile env sIn.devices.length (enrichedHosts env data0)
          { sys := completionLogState env data0 sIn, buffer := [], newCount := 0 }
       let s2 := if rst.newCount > 0
         then slog rst.sys env.ts ("Registered " ++ toString rst.newCount ++ " new devices")
         else rst.sys
       let s3 := if sIn.devices.length = 0 ∧ rst.buffer.length > 0
         then addNotif s2 (summaryNotif rst.buffer.length) else s2
       slog (offlinePass env (s3.devices.filter (fun d => !((foundMacsOf data0).contains d.mac))) s3)
         env.ts "Scan Complete.") := rfl

lemma foundMacsOf_sub_processed (env : CycleEnv) (data : List RawHost) (m : String)
    (hm : m ∈ foundMacsOf data) : ∃ h2 ∈ processedHosts env data, h2.mac = m ∧ ¬m = "" := by
  simp only [foundMacsOf, List.mem_filter, List.mem_map] at hm
  obtain ⟨⟨r, hr, hrm⟩, hne⟩ := hm
  obtain ⟨extra, hex⟩ := includeSelfAux_extends env.selfHostname env.ifaces data
  refine ⟨r, ?_, hrm, by simpa [← hrm] using hne⟩
  rw [processedHosts, hex]
  exact List.mem_append_left _ hr

/-- C4: a registry device whose MAC is absent from the cycle processed
host list gets exactly one offline history row regardless of prior state;
when its stored status was online it is flipped to offline (the flipped
row is in the final registry) and exactly one offline event is logged for
it; when it was not online, no offline event is logged and the row is
untouched. -/
theorem offline_transition (env : CycleEnv) (s : SysState) (data : List RawHost) (d : Device)
    (hok : env.sweep = Except.ok data)
    (hidle : s.isScanning = false)
    (hinv : Inv s)
    (hd : d ∈ s.devices)
    (habsent : ∀ h2 ∈ processedHosts env data, ¬h2.mac = d.mac) :
    offHistCount d.id (runScan env s) = offHistCount d.id s + 1 ∧
    (d.status = "online" →
      offEventCount d.id (runScan env s) = offEventCount d.id s + 1 ∧
      ({ d with status := "offline" } : Device) ∈ (runScan env s).devices) ∧
    (¬d.status = "online" →
      offEventCount d.id (runScan env s) = offEventCount d.id s ∧ d ∈ (runScan env s).devices) := by
  rw [runScan_ok_eq env data s hidle hok, scanComplete_unfold]
  simp only [cyclePreamble_devices]
  set sL := completionLogState env data (cyclePreamble env s) with hsL
  have hLdev : sL.devices = s.devices := by simp [hsL]
  have hLhist : sL.history = s.history := by simp [hsL]
  have hLev : sL.events = s.events := by simp [hsL]
  have hLnext : sL.nextId = s.nextId := by simp [hsL]
  have hInvL : Inv sL := by
    rw [Inv, hLdev, hLnext]
    exact hinv
  set st0 : RecSt := { sys := sL, buffer := [], newCount := 0 } with hst0
  set rst := reconcile env s.devices.length (enrichedHosts env data) st0 with hrst
  have hen : ∀ h2 ∈ enrichedHosts env data, h2.mac = "" ∨ ¬h2.mac = d.mac := by
    intro h2 hh2
    obtain ⟨r, hr, her⟩ := List.mem_map.mp hh2
    right
    rw [← her, enrichHost_mac]
    exact habsent r hr
  have hdL : d ∈ rst.sys.devices := by
    refine reconcile_untouched env s.devices.length (enrichedHosts env data) st0 d hen ?_
    rw [hst0]
    simpa [hLdev] using hd
  have hInvR : Inv rst.sys :=
    (reconcile_main env s.devices.length (enrichedHosts env data) st0 (by simpa [hst0] using hInvL)).1
  have hoffh : ∀ i, offHistCount i rst.sys = offHistCount i s := by
    intro i
    rw [hrst, reconcile_offHist]
    simp [hst0, offHistCount, hLhist]
  have hoffe : ∀ i, offEventCount i rst.sys = offEventCount i s := by
    intro i
    rw [hrst, reconcile_offEvent]
    simp [hst0, offEventCount, hLev]
  -- the state after the two conditional steps has the same relevant fields
  set s2 := if rst.newCount > 0
    then slog rst.sys env.ts ("Registered " ++ toString rst.newCount ++ " new devices")
    else rst.sys with hs2
  set s3 := if s.devices.length = 0 ∧ rst.buffer.length > 0
    then addNotif s2 (summaryNotif rst.buffer.length) else s2 with hs3
  have h3dev : s3.devices = rst.sys.devices := by simp [hs3, hs2]
  have h3hist : s3.history = rst.sys.history := by simp [hs3, hs2]
  have h3ev : s3.events = rst.sys.events := by simp [hs3, hs2]
  set Lq := s3.devices.filter (fun x => !((foundMacsOf data).contains x.mac)) with hLq
  -- d is in the offline snapshot
  have hdmacnot : ¬(foundMacsOf data).contains d.mac = true := by
    intro hc
    rw [List.contains_iff_exists_mem_beq] at hc
    obtain ⟨m, hm, hbeq⟩ := hc
    simp only [beq_iff_eq] at hbeq
    obtain ⟨h2, hh2, hh2m, _⟩ := foundMacsOf_sub_processed env data m hm
    exact habsent h2 hh2 (by rw [hh2m, ← hbeq])
  have hdInL : d ∈ Lq := by
    rw [hLq, List.mem_filter, h3dev]
    exact ⟨hdL, by simpa using hdmacnot⟩
  -- snapshot ids are distinct
  have hLnodup : (Lq.map Device.id).Nodup := by
    rw [hLq]
    refine List.Nodup.sublist (List.Sublist.map Device.id (List.filter_sublist _)) ?_
    rw [h3dev]
    exact hInvR.1
  obtain ⟨l1, l2, hsplit⟩ := List.append_of_mem hdInL
  have hmid : d.id ∉ (l1.map Device.id) ∧ d.id ∉ (l2.map Device.id) := by
    rw [hsplit] at hLnodup
    simp only [List.map_append, List.map_cons] at hLnodup
    have := List.nodup_middle.mp hLnodup
    rw [List.nodup_cons] at this
    constructor
    · intro hc
      exact this.1 (List.mem_append_left _ hc)
    · intro hc
      exact this.1 (List.mem_append_right _ hc)
  have hl1 : ∀ x ∈ l1, ¬x.id = d.id := by
    intro x hx he
    exact hmid.1 (he ▸ List.mem_map_of_mem Device.id hx)
  have hl2 : ∀ x ∈ l2, ¬x.id = d.id := by
    intro x hx he
    exact hmid.2 (he ▸ List.mem_map_of_mem Device.id hx)
  have hcount1 : Lq.countP (fun x => x.id == d.id) = 1 := by
    rw [hsplit, List.countP_append, List.countP_cons]
    have hz1 : l1.countP (fun x => x.id == d.id) = 0 := by
      rw [List.countP_eq_zero]
      intro a ha
      simpa using hl1 a ha
    have hz2 : l2.countP (fun x => x.id == d.id) = 0 := by
      rw [List.countP_eq_zero]
      intro a ha
      simpa using hl2 a ha
    simp [hz1, hz2]
  have hcount2 : Lq.countP (fun x => x.id == d.id && x.status == "online")
      = if d.status = "online" then 1 else 0 := by
    rw [hsplit, List.countP_append, List.countP_cons]
    have hz1 : l1.countP (fun x => x.id == d.id && x.status == "online") = 0 := by
      rw [List.countP_eq_zero]
      intro a ha
      simp
      intro he
      exact absurd he (hl1 a ha)
    have hz2 : l2.countP (fun x => x.id == d.id && x.status == "online") = 0 := by
      rw [List.countP_eq_zero]
      intro a ha
      simp
      intro he
      exact absurd he (hl2 a ha)
    by_cases hon : d.status = "online" <;> simp [hz1, hz2, hon]
  refine ⟨?_, ?_, ?_⟩
  · rw [offHistCount_slog, offlinePass_offHist, hcount1]
    rw [offHistCount, h3hist, ← offHistCount, hoffh]
  · intro hon
    constructor
    · rw [offEventCount_slog, offlinePass_offEvent, hcount2, if_pos hon]
      rw [offEventCount, h3ev, ← offEventCount, hoffe]
    · rw [slog_devices, hsplit, offlinePass_append]
      have hd3 : d ∈ s3.devices := by rw [h3dev]; exact hdL
      have hstep : ({ d with status := "offline" } : Device)
          ∈ (offlineStep env (offlinePass env l1 s3) d).devices :=
        offlineStep_flips env (offlinePass env l1 s3) d (offlinePass_mem env l1 s3 d hl1 hd3) hon
      have : offlinePass env (d :: l2) (offlinePass env l1 s3)
          = offlinePass env l2 (offlineStep env (offlinePass env l1 s3) d) := rfl
      rw [this]
      exact offlinePass_mem env l2 _ _ (fun x hx he => hl2 x hx (by simpa using he)) hstep
  · intro hon
    constructor
    · rw [offEventCount_slog, offlinePass_offEvent, hcount2, if_neg hon]
      rw [offEventCount, h3ev, ← offEventCount, hoffe]
      omega
    · rw [slog_devices, hsplit, offlinePass_append]
      have hd3 : d ∈ s3.devices := by rw [h3dev]; exact hdL
      have hstep : d ∈ (offlineStep env (offlinePass env l1 s3) d).devices :=
        offlineStep_stays env (offlinePass env l1 s3) d (offlinePass_mem env l1 s3 d hl1 hd3) hon
      have : offlinePass env (d :: l2) (offlinePass env l1 s3)
          = offlinePass env l2 (offlineStep env (offlinePass env l1 s3) d) := rfl
      rw [this]
      exact offlinePass_mem env l2 _ _ hl2 hstep

/-- C4 witness: the offline transition applied at a concrete registry. -/
theorem offline_transition_witness :
    offHistCount devC4.id (runScan envC4 sC4) = offHistCount devC4.id sC4 + 1 :=
  (offline_transition envC4 sC4 [] devC4 rfl rfl (by unfold Inv; decide) (by decide) (by decide)).1

@[simp] lemma applyUpdate_ip (d : Device) (h : Enriched) : (applyUpdate d h).ip = h.ip := rfl

lemma applyUpdate_vendor (d : Device) (h : Enriched) :
    (applyUpdate d h).vendor = if h.vendor ≠ "" then h.vendor else d.vendor := rfl

lemma offlinePass_ipChange (env : CycleEnv) (L : List Device) (s : SysState) :
    ipChangeEventCount (offlinePass env L s) = ipChangeEventCount s := by
  rw [ipChangeEventCount, offlinePass_events, List.countP_append]
  simp only [List.countP_map]
  have he : ((fun e : DomainEvent => e.etype == "ip_change") ∘ fun d : Device =>
      ({ etype := "offline",
         message := "Device " ++ (if d.name ≠ "" then d.name else d.ip) ++ " went offline",
         deviceId := d.id } : DomainEvent)) = (fun _ : Device => false) := by
    funext a
    simp [Function.comp]
  rw [he]
  simp [ipChangeEventCount]

lemma offlinePass_newDevice (env : CycleEnv) (L : List Device) (s : SysState) :
    newDeviceEventCount (offlinePass env L s) = newDeviceEventCount s := by
  rw [newDeviceEventCount, offlinePass_events, List.countP_append]
  simp only [List.countP_map]
  have he : ((fun e : DomainEvent => e.etype == "new_device") ∘ fun d : Device =>
      ({ etype := "offline",
         message := "Device " ++ (if d.name ≠ "" then d.name else d.ip) ++ " went offline",
         deviceId := d.id } : DomainEvent)) = (fun _ : Device => false) := by
    funext a
    simp [Function.comp]
  rw [he]
  simp [newDeviceEventCount]

lemma reconcile_matched_char (env : CycleEnv) (ic : Nat) (pre post : List Enriched) (hE : Enriched)
    (st : RecSt) (d : Device)
    (hInv : Inv st.sys)
    (hd : d ∈ st.sys.devices) (hmac : d.mac = hE.mac) (hne : ¬hE.mac = "")
    (hpre : ∀ h2 ∈ pre, h2.mac = "" ∨ ¬h2.mac = d.mac)
    (hpost : ∀ h2 ∈ post, h2.mac = "" ∨ ¬h2.mac = d.mac) :
    applyUpdate d hE ∈ (reconcile env ic (pre ++ hE :: post) st).sys.devices ∧
    (∀ x ∈ (reconcile env ic (pre ++ hE :: post) st).sys.devices,
        x.mac = d.mac → x = applyUpdate d hE) ∧
    (¬d.ip = hE.ip → ipChangeNotif d hE ∈ (reconcile env ic (pre ++ hE :: post) st).sys.emitted) ∧
    Inv (reconcile env ic (pre ++ hE :: post) st).sys := by
  rw [reconcile_append env ic pre (hE :: post) st, reconcile_cons]
  set st1 := reconcile env ic pre st with hst1
  have hInv1 : Inv st1.sys := (reconcile_main env ic pre st hInv).1
  have hd1 : d ∈ st1.sys.devices := reconcile_untouched env ic pre st d hpre hd
  have hsome : (st1.sys.devices.find? (fun x => x.mac == hE.mac)).isSome := by
    rw [List.find?_isSome]
    exact ⟨d, hd1, by simp [hmac]⟩
  obtain ⟨e, hfind⟩ := Option.isSome_iff_exists.mp hsome
  have hemac : e.mac = hE.mac := by
    have := List.find?_some hfind
    simpa using this
  have hemem : e ∈ st1.sys.devices := List.mem_of_find?_eq_some hfind
  have hed : e = d := nodup_map_inj Device.mac hInv1.2.1 e hemem d hd1 (by rw [hemac, hmac])
  subst hed
  have hm2 : (hE.mac == "") = false := by simpa using hne
  have hc := reconcileStep_matched env ic st1 hE e hm2 hfind
  have hup2 : applyUpdate e hE ∈ (reconcileStep env ic st1 hE).sys.devices := by
    rw [hc.1]
    exact List.mem_map.mpr ⟨e, hd1, by simp [hemac]⟩
  have hInv2 : Inv (reconcileStep env ic st1 hE).sys :=
    step_inv_matched env ic st1 hE e hm2 hfind hInv1
  have hemit2 : ¬e.ip = hE.ip → ipChangeNotif e hE ∈ (reconcileStep env ic st1 hE).sys.emitted := by
    intro hip
    rw [hc.2.2.2.2.2.2.2]
    simp [hip]
  obtain ⟨i1, i2, i3, i4, i5⟩ := reconcile_main env ic post (reconcileStep env ic st1 hE) hInv2
  have hpost2 : ∀ h2 ∈ post, h2.mac = "" ∨ ¬h2.mac = (applyUpdate e hE).mac := by
    intro h2 hh
    simpa using hpost h2 hh
  have hupF : applyUpdate e hE ∈ (reconcile env ic post (reconcileStep env ic st1 hE)).sys.devices :=
    reconcile_untouched env ic post (reconcileStep env ic st1 hE) (applyUpdate e hE) hpost2 hup2
  refine ⟨hupF, ?_, ?_, i1⟩
  · intro x hx hxm
    refine nodup_map_inj Device.mac i1.2.1 x hx _ hupF ?_
    rw [hxm]
    simp
  · intro hip
    obtain ⟨l2, hl2⟩ := reconcile_emitted_mono env ic post (reconcileStep env ic st1 hE)
    rw [hl2]
    exact List.mem_append_left _ (hemit2 hip)


lemma mem_macsOf {l : List Enriched} {h2 : Enriched} (hh : h2 ∈ l) (hz : ¬h2.mac = "") :
    h2.mac ∈ macsOf l := by
  rw [macsOf, List.mem_filter]
  exact ⟨List.mem_map_of_mem (fun x => x.mac) hh, by simpa using hz⟩

/-- C1 (amended): when a swept host re-sees an existing device's MAC (occurring
once among the cycle's hosts) at a different IP, the cycle keeps a single device
row for that MAC, updates its stored IP to the swept one, emits an IP-change
notification carrying old and new IP, and records no ip_change domain event. -/
theorem ip_change_notification (env : CycleEnv) (s : SysState) (data : List RawHost)
    (d : Device) (h : RawHost)
    (hok : env.sweep = Except.ok data)
    (hidle : s.isScanning = false)
    (hinv : Inv s)
    (hd : d ∈ s.devices)
    (hmem : h ∈ processedHosts env data)
    (hmac : d.mac = h.mac) (hne : ¬h.mac = "")
    (hnd : (macsOf (enrichedHosts env data)).Nodup)
    (hip : ¬d.ip = h.ip) :
    (((runScan env s).devices.map Device.mac).count d.mac = 1) ∧
    (∀ x ∈ (runScan env s).devices, x.mac = d.mac → x.ip = h.ip) ∧
    ipChangeNotif d (enrichHost env.rs h) ∈ (runScan env s).emitted ∧
    ipChangeEventCount (runScan env s) = ipChangeEventCount s := by
  rw [runScan_ok_eq env data s hidle hok, scanComplete_unfold]
  simp only [cyclePreamble_devices]
  set sL := completionLogState env data (cyclePreamble env s) with hsL
  have hLdev : sL.devices = s.devices := by simp [hsL]
  have hLev : sL.events = s.events := by simp [hsL]
  have hLnext : sL.nextId = s.nextId := by simp [hsL]
  set st0 : RecSt := { sys := sL, buffer := [], newCount := 0 } with hst0
  have hInv0 : Inv st0.sys := by
    rw [hst0]
    show Inv sL
    rw [Inv, hLdev, hLnext]
    exact hinv
  have hd0 : d ∈ st0.sys.devices := by
    rw [hst0]
    show d ∈ sL.devices
    rw [hLdev]
    exact hd
  have hEmem : enrichHost env.rs h ∈ enrichedHosts env data :=
    List.mem_map_of_mem (enrichHost env.rs) hmem
  obtain ⟨pre, post, hsplitE⟩ := List.append_of_mem hEmem
  have hmacE : d.mac = (enrichHost env.rs h).mac := by
    rw [enrichHost_mac]
    exact hmac
  have hneE : ¬(enrichHost env.rs h).mac = "" := by
    rw [enrichHost_mac]
    exact hne
  have hndE := hnd
  rw [hsplitE, macsOf_append, macsOf_cons, enrichHost_mac, if_neg hne] at hndE
  have hnotpre : ¬h.mac ∈ macsOf pre := by
    intro hcon
    rcases List.nodup_append.mp hndE with ⟨_, _, hdisj⟩
    exact hdisj hcon (List.mem_cons_self _ _)
  have hnotpost : ¬h.mac ∈ macsOf post := by
    rcases List.nodup_append.mp hndE with ⟨_, hcons, _⟩
    exact (List.nodup_cons.mp hcons).1
  have hpre : ∀ h2 ∈ pre, h2.mac = "" ∨ ¬h2.mac = d.mac := by
    intro h2 hh
    by_cases hz : h2.mac = ""
    · exact Or.inl hz
    · refine Or.inr fun hcon => hnotpre ?_
      have := mem_macsOf hh hz
      rw [hcon, hmac] at this
      exact this
  have hpost : ∀ h2 ∈ post, h2.mac = "" ∨ ¬h2.mac = d.mac := by
    intro h2 hh
    by_cases hz : h2.mac = ""
    · exact Or.inl hz
    · refine Or.inr fun hcon => hnotpost ?_
      have := mem_macsOf hh hz
      rw [hcon, hmac] at this
      exact this
  have hchar := reconcile_matched_char env s.devices.length pre post (enrichHost env.rs h)
    st0 d hInv0 hd0 hmacE hneE hpre hpost
  rw [← hsplitE] at hchar
  obtain ⟨hupmem, huniq, hemit, hInvF⟩ := hchar
  set rst := reconcile env s.devices.length (enrichedHosts env data) st0 with hrst
  set s2 := if rst.newCount > 0
    then slog rst.sys env.ts ("Registered " ++ toString rst.newCount ++ " new devices")
    else rst.sys with hs2
  set s3 := if s.devices.length = 0 ∧ rst.buffer.length > 0
    then addNotif s2 (summaryNotif rst.buffer.length) else s2 with hs3
  have h3dev : s3.devices = rst.sys.devices := by simp [hs3, hs2]
  have h3ev : s3.events = rst.sys.events := by simp [hs3, hs2]
  have h3emit : ∃ l, s3.emitted = rst.sys.emitted ++ l := by
    refine ⟨(if s.devices.length = 0 ∧ rst.buffer.length > 0
      then [summaryNotif rst.buffer.length] else []), ?_⟩
    rw [hs3, iteAdd_emitted]
    congr 1
    rw [hs2, iteSlog_emitted]
  set Lq := s3.devices.filter (fun x => !((foundMacsOf data).contains x.mac)) with hLq
  refine ⟨?_, ?_, ?_, ?_⟩
  · rw [slog_devices, offlinePass_devices_mac, h3dev]
    refine List.count_eq_one_of_mem hInvF.2.1 ?_
    have : (applyUpdate d (enrichHost env.rs h)).mac = d.mac := by simp
    rw [← this]
    exact List.mem_map_of_mem Device.mac hupmem
  · intro x hx hxm
    rw [slog_devices] at hx
    obtain ⟨y, hy, hf⟩ := offlinePass_back env Lq s3 x hx
    rw [h3dev] at hy
    have hym : y.mac = d.mac := by rw [← hf.2.1, hxm]
    have hyu := huniq y hy hym
    rw [hf.2.2.1, hyu]
    simp
  · rw [slog_emitted, offlinePass_emitted]
    obtain ⟨l3, hl3⟩ := h3emit
    rw [hl3]
    refine List.mem_append_left _ (List.mem_append_left _ ?_)
    exact hemit (by simpa using hip)
  · rw [ipChangeEventCount_slog, offlinePass_ipChange]
    rw [ipChangeEventCount, h3ev, ← ipChangeEventCount, hrst, reconcile_ipChange]
    rw [hst0]
    show (sL.events.countP _) = _
    rw [hLev]
    rfl
/-- C2 (amended): when a swept host matches an existing device's MAC, the stored
vendor after the cycle is the sweep's vendor whenever that is non-empty, and the
previously stored vendor only when the sweep's vendor is absent. -/
theorem vendor_refresh (env : CycleEnv) (s : SysState) (data : List RawHost)
    (d : Device) (h : RawHost)
    (hok : env.sweep = Except.ok data)
    (hidle : s.isScanning = false)
    (hinv : Inv s)
    (hd : d ∈ s.devices)
    (hmem : h ∈ processedHosts env data)
    (hmac : d.mac = h.mac) (hne : ¬h.mac = "")
    (hnd : (macsOf (enrichedHosts env data)).Nodup) :
    ∀ x ∈ (runScan env s).devices, x.mac = d.mac →
      x.vendor = if h.vendor = "" then d.vendor else h.vendor := by
  rw [runScan_ok_eq env data s hidle hok, scanComplete_unfold]
  simp only [cyclePreamble_devices]
  set sL := completionLogState env data (cyclePreamble env s) with hsL
  have hLdev : sL.devices = s.devices := by simp [hsL]
  have hLev : sL.events = s.events := by simp [hsL]
  have hLnext : sL.nextId = s.nextId := by simp [hsL]
  set st0 : RecSt := { sys := sL, buffer := [], newCount := 0 } with hst0
  have hInv0 : Inv st0.sys := by
    rw [hst0]
    show Inv sL
    rw [Inv, hLdev, hLnext]
    exact hinv
  have hd0 : d ∈ st0.sys.devices := by
    rw [hst0]
    show d ∈ sL.devices
    rw [hLdev]
    exact hd
  have hEmem : enrichHost env.rs h ∈ enrichedHosts env data :=
    List.mem_map_of_mem (enrichHost env.rs) hmem
  obtain ⟨pre, post, hsplitE⟩ := List.append_of_mem hEmem
  have hmacE : d.mac = (enrichHost env.rs h).mac := by
    rw [enrichHost_mac]
    exact hmac
  have hneE : ¬(enrichHost env.rs h).mac = "" := by
    rw [enrichHost_mac]
    exact hne
  have hndE := hnd
  rw [hsplitE, macsOf_append, macsOf_cons, enrichHost_mac, if_neg hne] at hndE
  have hnotpre : ¬h.mac ∈ macsOf pre := by
    intro hcon
    rcases List.nodup_append.mp hndE with ⟨_, _, hdisj⟩
    exact hdisj hcon (List.mem_cons_self _ _)
  have hnotpost : ¬h.mac ∈ macsOf post := by
    rcases List.nodup_append.mp hndE with ⟨_, hcons, _⟩
    exact (List.nodup_cons.mp hcons).1
  have hpre : ∀ h2 ∈ pre, h2.mac = "" ∨ ¬h2.mac = d.mac := by
    intro h2 hh
    by_cases hz : h2.mac = ""
    · exact Or.inl hz
    · refine Or.inr fun hcon => hnotpre ?_
      have := mem_macsOf hh hz
      rw [hcon, hmac] at this
      exact this
  have hpost : ∀ h2 ∈ post, h2.mac = "" ∨ ¬h2.mac = d.mac := by
    intro h2 hh
    by_cases hz : h2.mac = ""
    · exact Or.inl hz
    · refine Or.inr fun hcon => hnotpost ?_
      have := mem_macsOf hh hz
      rw [hcon, hmac] at this
      exact this
  have hchar := reconcile_matched_char env s.devices.length pre post (enrichHost env.rs h)
    st0 d hInv0 hd0 hmacE hneE hpre hpost
  rw [← hsplitE] at hchar
  obtain ⟨hupmem, huniq, hemit, hInvF⟩ := hchar
  set rst := reconcile env s.devices.length (enrichedHosts env data) st0 with hrst
  set s2 := if rst.newCount > 0
    then slog rst.sys env.ts ("Registered " ++ toString rst.newCount ++ " new devices")
    else rst.sys with hs2
  set s3 := if s.devices.length = 0 ∧ rst.buffer.length > 0
    then addNotif s2 (summaryNotif rst.buffer.length) else s2 with hs3
  have h3dev : s3.devices = rst.sys.devices := by simp [hs3, hs2]
  have h3ev : s3.events = rst.sys.events := by simp [hs3, hs2]
  have h3emit : ∃ l, s3.emitted = rst.sys.emitted ++ l := by
    refine ⟨(if s.devices.length = 0 ∧ rst.buffer.length > 0
      then [summaryNotif rst.buffer.length] else []), ?_⟩
    rw [hs3, iteAdd_emitted]
    congr 1
    rw [hs2, iteSlog_emitted]
  set Lq := s3.devices.filter (fun x => !((foundMacsOf data).contains x.mac)) with hLq
  intro x hx hxm
  rw [slog_devices] at hx
  obtain ⟨y, hy, hf⟩ := offlinePass_back env Lq s3 x hx
  rw [h3dev] at hy
  have hym : y.mac = d.mac := by rw [← hf.2.1, hxm]
  have hyu := huniq y hy hym
  rw [hf.2.2.2.1, hyu, applyUpdate_vendor, enrichHost_vendor]
  by_cases hv : h.vendor = "" <;> simp [hv]


/-- C1 witness: the IP-change theorem applied at a concrete registry. -/
theorem ip_change_notification_witness :
    ipChangeNotif devC1 (enrichHost envC1.rs hostC1) ∈ (runScan envC1 sC1).emitted ∧
    (((runScan envC1 sC1).devices.map Device.mac).count devC1.mac = 1) :=
  have h := ip_change_notification envC1 sC1 [hostC1] devC1 hostC1 rfl rfl
    (by unfold Inv; decide) (by decide) (by decide) (by decide) (by decide)
    (by decide) (by decide)
  ⟨h.2.2.1, h.1⟩

/-- C2 witness: the vendor-refresh theorem applied at a concrete registry. -/
theorem vendor_refresh_witness :
    (applyUpdate devC2 (enrichHost envC2.rs hostC2)).vendor
      = if hostC2.vendor = "" then devC2.vendor else hostC2.vendor :=
  vendor_refresh envC2 sC2 [hostC2] devC2 hostC2 rfl rfl
    (by unfold Inv; decide) (by decide) (by decide) (by decide) (by decide)
    (by decide) (applyUpdate devC2 (enrichHost envC2.rs hostC2)) (by decide) (by decide)


lemma filter_after_excise (l : List PortRow) (a b : Nat) (h : ¬a = b) :
    (l.filter (fun p => !(p.deviceId == b))).filter (fun p => p.deviceId == a)
      = l.filter (fun p => p.deviceId == a) := by
  rw [List.filter_filter]
  apply List.filter_congr
  intro x _
  by_cases hx : x.deviceId = a
  · simp [hx, h]
  · simp [hx]

lemma sdd_complete_some (ip : String) (r : FpResult) (rest : List FpResult) (s : SysState)
    (tgt : Device) (hfind : s.devices.find? (fun d => d.ip == ip) = some tgt) :
    scanDeviceDetailsComplete ip (r :: rest) s = { s with
      devices := s.devices.map (fun d => if d.id == tgt.id then applyFingerprint d r else d)
      ports := (s.ports.filter (fun p => !(p.deviceId == tgt.id))) ++
        r.openPorts.map (fun p =>
          ({ port := p.port, protocol := p.protocol, service := p.service,
             state := "open", deviceId := tgt.id } : PortRow)) } := by
  unfold scanDeviceDetailsComplete
  rw [hfind]

/-- C8 (amended): a deep-fingerprint completion writes only the first device
row whose current IP equals the fingerprinted IP and that row's port rows;
every other device row, every other device's port rows, and the history,
event, notification and emission logs are untouched, and a task whose trigger
snapshot already carries an OS changes nothing. -/
theorem fingerprint_frame (targetIp : String) (data : List FpResult) (s : SysState)
    (r : FpResult) (rest : List FpResult) (tgt : Device)
    (hdata : data = r :: rest)
    (hfind : s.devices.find? (fun d => d.ip == targetIp) = some tgt) :
    (∀ os, ¬os = "" → scanDeviceDetails targetIp os data s = s) ∧
    (scanDeviceDetails targetIp "" data s).devices.length = s.devices.length ∧
    applyFingerprint tgt r ∈ (scanDeviceDetails targetIp "" data s).devices ∧
    (∀ x ∈ s.devices, ¬x.id = tgt.id → x ∈ (scanDeviceDetails targetIp "" data s).devices) ∧
    (∀ i, ¬i = tgt.id →
      (scanDeviceDetails targetIp "" data s).ports.filter (fun p => p.deviceId == i)
        = s.ports.filter (fun p => p.deviceId == i)) ∧
    (scanDeviceDetails targetIp "" data s).history = s.history ∧
    (scanDeviceDetails targetIp "" data s).events = s.events ∧
    (scanDeviceDetails targetIp "" data s).emitted = s.emitted ∧
    (scanDeviceDetails targetIp "" data s).notifs = s.notifs := by
  have hrun : scanDeviceDetails targetIp "" data s
      = scanDeviceDetailsComplete targetIp (r :: rest) s := by
    rw [scanDeviceDetails, if_neg (by simp), hdata]
  have hchar := sdd_complete_some targetIp r rest s tgt hfind
  refine ⟨?_, ?_, ?_, ?_, ?_, ?_, ?_, ?_, ?_⟩
  · intro os hos
    rw [scanDeviceDetails, if_pos hos]
  · rw [hrun, hchar]
    exact List.length_map _ _
  · rw [hrun, hchar]
    have htm := List.mem_of_find?_eq_some hfind
    refine List.mem_map.2 ⟨tgt, htm, ?_⟩
    simp
  · intro x hx hne
    rw [hrun, hchar]
    refine List.mem_map.2 ⟨x, hx, ?_⟩
    simp [hne]
  · intro i hne
    rw [hrun, hchar]
    show ((s.ports.filter _ ++ _).filter (fun p => p.deviceId == i)) = _
    rw [List.filter_append, filter_after_excise s.ports i tgt.id hne, List.filter_map]
    have hz : (List.filter ((fun p => p.deviceId == i) ∘ fun p =>
        ({ port := p.port, protocol := p.protocol, service := p.service,
           state := "open", deviceId := tgt.id } : PortRow)) r.openPorts) = [] := by
      apply List.filter_eq_nil_iff.2
      intro p _
      simp [Function.comp]
      intro hti
      exact hne hti.symm
    rw [hz]
    simp
  · rw [hrun, hchar]
  · rw [hrun, hchar]
  · rw [hrun, hchar]
  · rw [hrun, hchar]


/-- C8 witness: the frame theorem applied at two rows sharing one IP. -/
theorem fingerprint_frame_witness :
    devC8b ∈ (scanDeviceDetails "10.0.0.5" "" [resC8] sC8).devices ∧
    applyFingerprint devC8a resC8 ∈ (scanDeviceDetails "10.0.0.5" "" [resC8] sC8).devices ∧
    scanDeviceDetails "10.0.0.5" "Windows" [resC8] sC8 = sC8 :=
  have h := fingerprint_frame "10.0.0.5" [resC8] sC8 resC8 [] devC8a rfl (by decide)
  ⟨h.2.2.2.1 devC8b (by decide) (by decide), h.2.2.1, h.1 "Windows" (by decide)⟩


lemma mem_ite_singleton {α : Type} {n x : α} {c : Prop} [Decidable c]
    (h : n ∈ (if c then [x] else [])) : n = x := by
  split at h
  · simpa using h
  · simp at h

lemma reconcile_firstrun (env : CycleEnv) (ic : Nat) (hic : ic = 0)
    (hosts : List Enriched) (st : RecSt) :
    (reconcile env ic hosts st).sys.settings = st.sys.settings ∧
    (notifyNewDeviceB st.sys.settings = true →
       (reconcile env ic hosts st).buffer.length + st.sys.devices.length
         = st.buffer.length + (reconcile env ic hosts st).sys.devices.length) ∧
    (notifyNewDeviceB st.sys.settings = false →
       (reconcile env ic hosts st).buffer = st.buffer) ∧
    (∀ n ∈ (reconcile env ic hosts st).sys.emitted,
       n ∈ st.sys.emitted ∨ n.title = "IP Address Changed" ∨ n.title = "Device Online") := by
  subst hic
  induction hosts generalizing st with
  | nil => exact ⟨rfl, fun _ => rfl, fun _ => rfl, fun n hn => Or.inl hn⟩
  | cons h t ih =>
    rw [reconcile_cons]
    by_cases hm : (h.mac == "") = true
    · rw [reconcileStep_skip env 0 st h hm]
      exact ih st
    · have hm2 : (h.mac == "") = false := by
        exact Bool.eq_false_iff.2 hm
      cases hf : st.sys.devices.find? (fun d => d.mac == h.mac) with
      | some e =>
        obtain ⟨hdev, hhist, hev, hnext, hset, hbuf, hnc, hemit⟩ :=
          reconcileStep_matched env 0 st h e hm2 hf
        obtain ⟨ihset, ihlen, ihbuf, ihemit⟩ := ih (reconcileStep env 0 st h)
        have hlen : (reconcileStep env 0 st h).sys.devices.length = st.sys.devices.length := by
          rw [hdev]
          exact List.length_map _ _
        refine ⟨?_, ?_, ?_, ?_⟩
        · rw [ihset, hset]
        · intro hb
          have hq := ihlen (by rw [hset]; exact hb)
          have hb2 : (reconcileStep env 0 st h).buffer.length = st.buffer.length := by rw [hbuf]
          omega
        · intro hb
          rw [ihbuf (by rw [hset]; exact hb), hbuf]
        · intro n hn
          rcases ihemit n hn with hin | ht
          · rw [hemit] at hin
            rcases List.mem_append.mp hin with h1 | h2
            · rcases List.mem_append.mp h1 with h0 | hi1
              · exact Or.inl h0
              · refine Or.inr (Or.inl ?_)
                rw [mem_ite_singleton hi1]
                rfl
            · refine Or.inr (Or.inr ?_)
              rw [mem_ite_singleton h2]
              rfl
          · exact Or.inr ht
      | none =>
        obtain ⟨hdev, hhist, hev, hnext, hset, hbuf, hnc, hemit⟩ :=
          reconcileStep_created env 0 st h hm2 hf
        obtain ⟨ihset, ihlen, ihbuf, ihemit⟩ := ih (reconcileStep env 0 st h)
        have hlen : (reconcileStep env 0 st h).sys.devices.length = st.sys.devices.length + 1 := by
          rw [hdev]
          simp
        have hemit2 : (reconcileStep env 0 st h).sys.emitted = st.sys.emitted := by
          rw [hemit]
          simp
        refine ⟨?_, ?_, ?_, ?_⟩
        · rw [ihset, hset]
        · intro hb
          have hq := ihlen (by rw [hset]; exact hb)
          have hb2 : (reconcileStep env 0 st h).buffer.length = st.buffer.length + 1 := by
            rw [hbuf, if_pos ⟨hb, rfl⟩]
            simp
          omega
        · intro hb
          have hb2 : (reconcileStep env 0 st h).buffer = st.buffer := by
            rw [hbuf]
            simp [hb]
          rw [ihbuf (by rw [hset]; exact hb), hb2]
        · intro n hn
          rcases ihemit n hn with hin | ht
          · rw [hemit2] at hin
            exact Or.inl hin
          · exact Or.inr ht


/-- C7 (amended): on a first-ever cycle (registry empty at start) no individual
new-device notification is emitted; when the new-device option is enabled and at
least one device was discovered, exactly one summary notification titled First
Scan Completed stating the device count is emitted, and with the option
disabled no summary is emitted either. -/
theorem first_scan_summary (env : CycleEnv) (s : SysState) (data : List RawHost)
    (hok : env.sweep = Except.ok data)
    (hidle : s.isScanning = false)
    (hdev : s.devices = []) :
    ((runScan env s).emitted.filter (fun n => n.title == "New Device Discovered") = []) ∧
    ((runScan env s).emitted.filter (fun n => n.title == "First Scan Completed")
      = if notifyNewDeviceB s.settings = true ∧ 0 < (runScan env s).devices.length
        then [summaryNotif (runScan env s).devices.length] else []) := by
  rw [runScan_ok_eq env data s hidle hok, scanComplete_unfold]
  simp only [cyclePreamble_devices]
  set sL := completionLogState env data (cyclePreamble env s) with hsL
  have hLdev : sL.devices = s.devices := by simp [hsL]
  have hLset : sL.settings = s.settings := by simp [hsL]
  have hLemit : sL.emitted = [] := by simp [hsL]
  set st0 : RecSt := { sys := sL, buffer := [], newCount := 0 } with hst0
  have h0emit : st0.sys.emitted = [] := hLemit
  have h0set : st0.sys.settings = s.settings := hLset
  have h0dev : st0.sys.devices = [] := by
    have h1 : st0.sys.devices = s.devices := hLdev
    rw [h1, hdev]
  have hicz : s.devices.length = 0 := by rw [hdev]; rfl
  obtain ⟨hset, hlenb, hbufF, hemitF⟩ :=
    reconcile_firstrun env s.devices.length hicz (enrichedHosts env data) st0
  set rst := reconcile env s.devices.length (enrichedHosts env data) st0 with hrst
  set s2 := if rst.newCount > 0
    then slog rst.sys env.ts ("Registered " ++ toString rst.newCount ++ " new devices")
    else rst.sys with hs2
  set s3 := if s.devices.length = 0 ∧ rst.buffer.length > 0
    then addNotif s2 (summaryNotif rst.buffer.length) else s2 with hs3
  have h2emit : s2.emitted = rst.sys.emitted := by rw [hs2, iteSlog_emitted]
  have h3emit : s3.emitted = rst.sys.emitted
      ++ (if s.devices.length = 0 ∧ rst.buffer.length > 0
          then [summaryNotif rst.buffer.length] else []) := by
    rw [hs3, iteAdd_emitted, h2emit]
  have h3dev : s3.devices = rst.sys.devices := by simp [hs3, hs2]
  set Lq := s3.devices.filter (fun x => !((foundMacsOf data).contains x.mac)) with hLq
  have hdlen : (slog (offlinePass env Lq s3) env.ts "Scan Complete.").devices.length
      = rst.sys.devices.length := by
    rw [slog_devices]
    have hq := congrArg List.length (offlinePass_devices_id env Lq s3)
    simp only [List.length_map] at hq
    rw [hq, h3dev]
  constructor
  · apply List.filter_eq_nil_iff.2
    intro n hn
    rw [slog_emitted, offlinePass_emitted, h3emit] at hn
    rcases List.mem_append.mp hn with h1 | h2
    · rcases List.mem_append.mp h1 with h0 | hsum
      · rcases hemitF n h0 with hin | ht | ht
        · rw [h0emit] at hin
          exact absurd hin (List.not_mem_nil n)
        · show ¬(n.title == "New Device Discovered") = true
          rw [ht]
          decide
        · show ¬(n.title == "New Device Discovered") = true
          rw [ht]
          decide
      · rw [mem_ite_singleton hsum]
        simp [summaryNotif]
    · obtain ⟨y, hy, hyn⟩ := List.mem_map.mp h2
      rw [← hyn]
      simp [offlineNotif]
  · rw [slog_emitted, offlinePass_emitted, h3emit, List.filter_append, List.filter_append]
    have hz1 : rst.sys.emitted.filter (fun n => n.title == "First Scan Completed") = [] := by
      apply List.filter_eq_nil_iff.2
      intro n h0
      rcases hemitF n h0 with hin | ht | ht
      · rw [h0emit] at hin
        exact absurd hin (List.not_mem_nil n)
      · show ¬(n.title == "First Scan Completed") = true
        rw [ht]
        decide
      · show ¬(n.title == "First Scan Completed") = true
        rw [ht]
        decide
    have hz2 : ∀ L : List Device, (List.filter (fun n : Notification => n.title == "First Scan Completed")
        (L.map offlineNotif)) = [] := by
      intro L
      apply List.filter_eq_nil_iff.2
      intro n h0
      obtain ⟨y, hy, hyn⟩ := List.mem_map.mp h0
      rw [← hyn]
      simp [offlineNotif]
    rw [hz1, hz2, List.nil_append, List.append_nil, apply_ite
      (List.filter (fun n : Notification => n.title == "First Scan Completed")), hdlen]
    have hfil : List.filter (fun n : Notification => n.title == "First Scan Completed")
        [summaryNotif rst.buffer.length] = [summaryNotif rst.buffer.length] := by
      rw [List.filter_cons]
      simp [summaryNotif]
    rw [hfil, List.filter_nil]
    by_cases hb : notifyNewDeviceB s.settings = true
    · have hq := hlenb (by rw [h0set]; exact hb)
      have h0b : st0.buffer.length = 0 := rfl
      have h0d : st0.sys.devices.length = 0 := by rw [h0dev]; rfl
      have hql : rst.buffer.length = rst.sys.devices.length := by omega
      by_cases hpos : 0 < rst.sys.devices.length
      · rw [if_pos ⟨hicz, by rw [hql]; exact hpos⟩, if_pos ⟨hb, hpos⟩, hql]
      · rw [if_neg (fun hc => hpos (by rw [← hql]; exact hc.2)),
          if_neg (fun hc => hpos hc.2)]
    · have hbuf0 : rst.buffer = [] := by
        rw [hbufF (Bool.eq_false_iff.2 (by rw [h0set]; exact hb))]
      rw [if_neg (fun hc => by rw [hbuf0] at hc; exact absurd hc.2 (by decide)),
        if_neg (fun hc => hb hc.1)]


/-- C7 witness: the first-scan theorem applied at a one-host sweep over an
empty registry with notifications enabled. -/
theorem first_scan_summary_witness :
    ((runScan envC7 sC7on).emitted.filter (fun n => n.title == "New Device Discovered") = []) ∧
    ((runScan envC7 sC7on).emitted.filter (fun n => n.title == "First Scan Completed")
      = if notifyNewDeviceB sC7on.settings = true ∧ 0 < (runScan envC7 sC7on).devices.length
        then [summaryNotif (runScan envC7 sC7on).devices.length] else []) :=
  first_scan_summary envC7 sC7on [hostC7] rfl rfl rfl


lemma offlinePass_hist (env : CycleEnv) (L : List Device) (s : SysState) (i : Nat) :
    histCount i (offlinePass env L s) = histCount i s + L.countP (fun x => x.id == i) := by
  rw [histCount, offlinePass_history, List.countP_append]
  simp only [histCount, List.countP_map]
  have he : ((fun r : HistoryRow => r.deviceId == i) ∘ fun d : Device =>
      ({ deviceId := d.id, status := "offline", latency := none } : HistoryRow))
      = (fun x : Device => x.id == i) := by
    funext a
    simp [Function.comp]
  rw [he]

lemma macsOf_enriched (env : CycleEnv) (data : List RawHost) :
    macsOf (enrichedHosts env data) = foundMacsOf (processedHosts env data) := by
  rw [macsOf, foundMacsOf, enrichedHosts, List.map_map]
  have he : ((fun h : Enriched => h.mac) ∘ enrichHost env.rs)
      = fun d : RawHost => d.mac := by
    funext a
    simp [Function.comp]
  rw [he]

lemma countP_id_unique (l : List Device) (hnd : (l.map Device.id).Nodup)
    (x : Device) (hx : x ∈ l) (p : Device → Bool) :
    l.countP (fun y => (y.id == x.id) && p y) = if p x then 1 else 0 := by
  obtain ⟨l1, l2, hsplit⟩ := List.append_of_mem hx
  subst hsplit
  simp only [List.map_append, List.map_cons] at hnd
  have hmid := List.nodup_middle.mp hnd
  rw [List.nodup_cons] at hmid
  have hz1 : l1.countP (fun y => (y.id == x.id) && p y) = 0 := by
    rw [List.countP_eq_zero]
    intro a ha
    simp only [Bool.and_eq_true, beq_iff_eq, not_and]
    intro hc
    exact absurd (hc ▸ List.mem_map_of_mem Device.id ha)
      (fun hq => hmid.1 (List.mem_append_left _ hq))
  have hz2 : l2.countP (fun y => (y.id == x.id) && p y) = 0 := by
    rw [List.countP_eq_zero]
    intro a ha
    simp only [Bool.and_eq_true, beq_iff_eq, not_and]
    intro hc
    exact absurd (hc ▸ List.mem_map_of_mem Device.id ha)
      (fun hq => hmid.1 (List.mem_append_right _ hq))
  rw [List.countP_append, List.countP_cons, hz1, hz2]
  simp


lemma runScan_cycle (env : CycleEnv) (s : SysState) (data : List RawHost)
    (hok : env.sweep = Except.ok data) (hidle : s.isScanning = false) (hinv : Inv s)
    (hself : processedHosts env data = data)
    (hnd : (macsOf (enrichedHosts env data)).Nodup) :
    Inv (runScan env s) ∧
    (∀ d ∈ s.devices, histCount d.id (runScan env s) = histCount d.id s + 1) ∧
    (∀ h2 ∈ enrichedHosts env data, ¬h2.mac = "" →
        h2.mac ∈ (runScan env s).devices.map Device.mac) ∧
    ((∀ h2 ∈ enrichedHosts env data, ¬h2.mac = "" → h2.mac ∈ s.devices.map Device.mac) →
      ((runScan env s).devices.length = s.devices.length ∧
       newDeviceEventCount (runScan env s) = newDeviceEventCount s)) := by
  rw [runScan_ok_eq env data s hidle hok, scanComplete_unfold]
  simp only [cyclePreamble_devices]
  set sL := completionLogState env data (cyclePreamble env s) with hsL
  have hLdev : sL.devices = s.devices := by simp [hsL]
  have hLhist : sL.history = s.history := by simp [hsL]
  have hLev : sL.events = s.events := by simp [hsL]
  have hLnext : sL.nextId = s.nextId := by simp [hsL]
  have hInvL : Inv sL := by
    rw [Inv, hLdev, hLnext]
    exact hinv
  set st0 : RecSt := { sys := sL, buffer := [], newCount := 0 } with hst0
  have hInv0 : Inv st0.sys := hInvL
  set rst := reconcile env s.devices.length (enrichedHosts env data) st0 with hrst
  obtain ⟨hInvR, hnle, hfwd, hbwd, hsetR⟩ :=
    reconcile_main env s.devices.length (enrichedHosts env data) st0 hInv0
  set s2 := if rst.newCount > 0
    then slog rst.sys env.ts ("Registered " ++ toString rst.newCount ++ " new devices")
    else rst.sys with hs2
  set s3 := if s.devices.length = 0 ∧ rst.buffer.length > 0
    then addNotif s2 (summaryNotif rst.buffer.length) else s2 with hs3
  have h3dev : s3.devices = rst.sys.devices := by simp [hs3, hs2]
  have h3hist : s3.history = rst.sys.history := by simp [hs3, hs2]
  have h3ev : s3.events = rst.sys.events := by simp [hs3, hs2]
  have h3next : s3.nextId = rst.sys.nextId := by simp [hs3, hs2]
  set Lq := s3.devices.filter (fun x => !((foundMacsOf data).contains x.mac)) with hLq
  have hfm : foundMacsOf data = macsOf (enrichedHosts env data) := by
    rw [macsOf_enriched, hself]
  have hfid : (slog (offlinePass env Lq s3) env.ts "Scan Complete.").devices.map Device.id
      = rst.sys.devices.map Device.id := by
    rw [slog_devices, offlinePass_devices_id, h3dev]
  have hfmac : (slog (offlinePass env Lq s3) env.ts "Scan Complete.").devices.map Device.mac
      = rst.sys.devices.map Device.mac := by
    rw [slog_devices, offlinePass_devices_mac, h3dev]
  refine ⟨⟨?_, ?_, ?_⟩, ?_, ?_, ?_⟩
  · rw [hfid]
    exact hInvR.1
  · rw [hfmac]
    exact hInvR.2.1
  · intro d hd
    have hmem : d.id ∈ (slog (offlinePass env Lq s3) env.ts "Scan Complete.").devices.map Device.id :=
      List.mem_map_of_mem Device.id hd
    rw [hfid] at hmem
    obtain ⟨y, hy, hey⟩ := List.mem_map.mp hmem
    show d.id < (slog (offlinePass env Lq s3) env.ts "Scan Complete.").nextId
    rw [slog_nextId, offlinePass_nextId, h3next, ← hey]
    exact hInvR.2.2 y hy
  · intro d hd
    have hd0 : d ∈ st0.sys.devices := by
      show d ∈ sL.devices
      rw [hLdev]
      exact hd
    obtain ⟨x2, hx2, hxid, hxmac⟩ := hfwd d hd0
    have hrow := reconcile_rowcount env s.devices.length (enrichedHosts env data) st0 hInv0 hnd x2
      (by rw [← hrst]; exact hx2)
    rw [← hrst] at hrow
    rw [hxid, hxmac] at hrow
    have hcnt : Lq.countP (fun x => x.id == d.id)
        = if d.mac ∈ macsOf (enrichedHosts env data) then 0 else 1 := by
      rw [hLq, h3dev, List.countP_filter]
      have hu := countP_id_unique rst.sys.devices hInvR.1 x2 hx2
        (fun y => !((foundMacsOf data).contains y.mac))
      rw [hxid, hxmac] at hu
      rw [hu]
      by_cases hm : d.mac ∈ macsOf (enrichedHosts env data)
      · have hcont : (foundMacsOf data).contains d.mac = true := by
          rw [hfm]
          exact List.contains_iff_exists_mem_beq.mpr ⟨d.mac, hm, by simp⟩
        rw [hcont]
        simp [hm]
      · have hcont : (foundMacsOf data).contains d.mac = false := by
          rw [hfm]
          refine Bool.eq_false_iff.2 fun hc => ?_
          obtain ⟨b, hb, hbeq⟩ := List.contains_iff_exists_mem_beq.mp hc
          simp only [beq_iff_eq] at hbeq
          exact hm (hbeq ▸ hb)
        rw [hcont]
        simp [hm]
    rw [histCount_slog, offlinePass_hist, hcnt]
    have h3h : histCount d.id s3 = histCount d.id rst.sys := by
      unfold histCount
      rw [h3hist]
    have h0hist : st0.sys.history = s.history := hLhist
    have h0h : histCount d.id st0.sys = histCount d.id s := by
      unfold histCount
      rw [h0hist]
    rw [h3h, hrow, h0h]
    by_cases hm : d.mac ∈ macsOf (enrichedHosts env data) <;> simp [hm]
  · intro h2 hh2 hne
    rw [hfmac, hrst]
    exact (reconcile_macs_present env s.devices.length (enrichedHosts env data) st0).2 h2 hh2 hne
  · intro hall
    have hall0 : ∀ h3 ∈ enrichedHosts env data, ¬h3.mac = "" →
        h3.mac ∈ st0.sys.devices.map Device.mac := by
      intro h3 hh hne
      have hd0 : st0.sys.devices = s.devices := hLdev
      rw [hd0]
      exact hall h3 hh hne
    obtain ⟨ha1, ha2, ha3⟩ :=
      reconcile_allmatched env s.devices.length (enrichedHosts env data) st0 hall0
    constructor
    · have hq := congrArg List.length hfid
      simp only [List.length_map] at hq
      rw [hq, hrst, ha1]
      show sL.devices.length = s.devices.length
      rw [hLdev]
    · rw [newDeviceEventCount_slog, offlinePass_newDevice]
      have h3n : newDeviceEventCount s3 = newDeviceEventCount rst.sys := by
        unfold newDeviceEventCount
        rw [h3ev]
      rw [h3n, hrst]
      unfold newDeviceEventCount
      rw [ha2]
      show sL.events.countP _ = _
      rw [hLev]


/-- C5 (amended): with pairwise-distinct non-empty MACs in the sweep and no
self entry synthesized, a second cycle on the identical sweep input creates no
new device row and no new_device event, and each of the two cycles appends
exactly one history row per registry device. -/
theorem idempotent_resighting (env : CycleEnv) (s : SysState) (data : List RawHost)
    (hok : env.sweep = Except.ok data)
    (hidle : s.isScanning = false)
    (hinv : Inv s)
    (hself : processedHosts env data = data)
    (hnd : (macsOf (enrichedHosts env data)).Nodup) :
    (runScan env (graceElapse (runScan env s))).devices.length = (runScan env s).devices.length ∧
    newDeviceEventCount (runScan env (graceElapse (runScan env s)))
      = newDeviceEventCount (runScan env s) ∧
    (∀ d ∈ s.devices, histCount d.id (runScan env s) = histCount d.id s + 1) ∧
    (∀ d ∈ (runScan env s).devices,
      histCount d.id (runScan env (graceElapse (runScan env s)))
        = histCount d.id (runScan env s) + 1) := by
  obtain ⟨hI1, hH1, hP1, _⟩ := runScan_cycle env s data hok hidle hinv hself hnd
  have hidle2 : (graceElapse (runScan env s)).isScanning = false := rfl
  have hinv2 : Inv (graceElapse (runScan env s)) := hI1
  obtain ⟨hI2, hH2, hP2, hZ2⟩ :=
    runScan_cycle env (graceElapse (runScan env s)) data hok hidle2 hinv2 hself hnd
  obtain ⟨hlen, hev⟩ := hZ2 hP1
  exact ⟨hlen, hev, hH1, fun d hd => hH2 d hd⟩

/-- C5 witness: the idempotent-resighting theorem applied at a one-host sweep
re-seen over two cycles. -/
theorem idempotent_resighting_witness :
    (runScan envC1 (graceElapse (runScan envC1 sC1))).devices.length
      = (runScan envC1 sC1).devices.length ∧
    newDeviceEventCount (runScan envC1 (graceElapse (runScan envC1 sC1)))
      = newDeviceEventCount (runScan envC1 sC1) ∧
    histCount devC1.id (runScan envC1 sC1) = histCount devC1.id sC1 + 1 :=
  have h := idempotent_resighting envC1 sC1 [hostC1] rfl rfl
    (by unfold Inv; decide) (by decide) (by decide)
  ⟨h.1, h.2.1, h.2.2.1 devC1 (by decide)⟩

end Lantern
